import Mathlib

/-!
Verification development for `scripts/process_docs_hybrid.py`, the document
intake pipeline of this repository.  The Python program is shallowly embedded:
JSON/Python values become the inductive type `PyVal`, the filesystem becomes a
finite association list from structured paths to entries, external calls
(pdftotext, the remote OCR and analysis service, the containerized rebuilder,
`os.utime`) become explicit inputs recording their outcome, and Python
exceptions become `Except` / error-carrying results.  Each definition follows
the corresponding Python function line by line; theorems settle the frozen
claims about the pipeline.
-/

namespace DocsPipeline

/-- Model of a Python/JSON value as it can appear in the analyzer output:
`None`, booleans, integers, strings, lists and string-keyed dicts. -/
inductive PyVal where
  | vNone
  | vBool (b : Bool)
  | vInt (n : Int)
  | vStr (s : String)
  | vList (xs : List PyVal)
  | vDict (kvs : List (String × PyVal))
deriving Repr

/-- Python truthiness: `None`, `False`, `0`, `""`, `[]`, `{}` are falsy. -/
def pyTruthy : PyVal → Bool
  | .vNone => false
  | .vBool b => b
  | .vInt n => n != 0
  | .vStr s => s != ""
  | .vList xs => !xs.isEmpty
  | .vDict kvs => !kvs.isEmpty

mutual

/-- Python `==` on modeled values (note `True == 1` and `False == 0`). -/
def pyBeq : PyVal → PyVal → Bool
  | .vNone, .vNone => true
  | .vBool a, .vBool b => a == b
  | .vBool a, .vInt m => (if a then (1 : Int) else 0) == m
  | .vInt n, .vBool b => n == (if b then (1 : Int) else 0)
  | .vInt a, .vInt b => a == b
  | .vStr a, .vStr b => a == b
  | .vList xs, .vList ys => pyBeqList xs ys
  | .vDict xs, .vDict ys => pyBeqKvs xs ys
  | _, _ => false

/-- Elementwise Python `==` on lists. -/
def pyBeqList : List PyVal → List PyVal → Bool
  | [], [] => true
  | x :: xs, y :: ys => pyBeq x y && pyBeqList xs ys
  | _, _ => false

/-- Entrywise Python `==` on dict entry lists. -/
def pyBeqKvs : List (String × PyVal) → List (String × PyVal) → Bool
  | [], [] => true
  | (k1, v1) :: xs, (k2, v2) :: ys => k1 == k2 && pyBeq v1 v2 && pyBeqKvs xs ys
  | _, _ => false

end

/-- Decimal digit character for a value below ten. -/
def digitCh (n : Nat) : Char := Char.ofNat (48 + n)

/-- Numeric value of a decimal digit character. -/
def digitVal (c : Char) : Nat := c.toNat - 48

/-- Fuel-indexed decimal digit expansion of a natural number. -/
def natDigitsAux : Nat → Nat → List Char
  | 0, _ => []
  | fuel + 1, n =>
      if n < 10 then [digitCh n] else natDigitsAux fuel (n / 10) ++ [digitCh (n % 10)]

/-- Decimal digits of a natural number, most significant first. -/
def natDigits (n : Nat) : List Char := natDigitsAux (n + 1) n

/-- Value of a decimal digit list, most significant first. -/
def digitsVal (ds : List Char) : Nat := ds.foldl (fun a c => 10 * a + digitVal c) 0

/-- Python `str` of a natural number. -/
def natToStr (n : Nat) : String := String.mk (natDigits n)

theorem digitVal_digitCh (n : Nat) (h : n < 10) : digitVal (digitCh n) = n := by
  interval_cases n <;> rfl

theorem digitsVal_natDigitsAux (fuel n : Nat) (h : n < fuel) :
    digitsVal (natDigitsAux fuel n) = n := by
  induction fuel generalizing n with
  | zero => omega
  | succ fuel ih =>
    rw [natDigitsAux]
    split
    · simp only [digitsVal, List.foldl]
      rw [digitVal_digitCh]
      · omega
      · assumption
    · rename_i hn
      have hdiv : n / 10 < fuel := by
        have := Nat.div_lt_self (by omega : 0 < n) (by omega : 1 < 10)
        omega
      simp only [digitsVal] at *
      rw [List.foldl_append, ih _ hdiv]
      simp only [List.foldl]
      rw [digitVal_digitCh]
      · omega
      · omega

theorem digitsVal_natDigits (n : Nat) : digitsVal (natDigits n) = n :=
  digitsVal_natDigitsAux (n + 1) n (by omega)

theorem natToStr_inj : Function.Injective natToStr := by
  intro m n h
  have h2 : natDigits m = natDigits n := by
    injection h
  have hm := digitsVal_natDigits m
  rw [h2, digitsVal_natDigits] at hm
  omega

/-- Python `str` of an integer. -/
def intStr (n : Int) : String :=
  if n < 0 then "-" ++ natToStr n.natAbs else natToStr n.natAbs

/-- The single-quote character used by Python `repr` of strings. -/
def pyQuote : String := (Char.ofNat 39).toString

mutual

/-- Python `repr` of a modeled value (as used by `str`/f-strings on
containers). -/
def pyRepr : PyVal → String
  | .vNone => "None"
  | .vBool b => cond b "True" "False"
  | .vInt n => intStr n
  | .vStr s => pyQuote ++ s ++ pyQuote
  | .vList xs => "[" ++ pyReprItems xs ++ "]"
  | .vDict kvs => "\x7b" ++ pyReprKvs kvs ++ "\x7d"

/-- Comma-joined `repr`s of list items. -/
def pyReprItems : List PyVal → String
  | [] => ""
  | [x] => pyRepr x
  | x :: xs => pyRepr x ++ ", " ++ pyReprItems xs

/-- Comma-joined `repr`s of dict entries. -/
def pyReprKvs : List (String × PyVal) → String
  | [] => ""
  | [(k, v)] => pyQuote ++ k ++ pyQuote ++ ": " ++ pyRepr v
  | (k, v) :: kvs => pyQuote ++ k ++ pyQuote ++ ": " ++ pyRepr v ++ ", " ++ pyReprKvs kvs

end

/-- Python `str` of a modeled value (f-string interpolation). -/
def pyStr : PyVal → String
  | .vStr s => s
  | v => pyRepr v

/-- Lookup in a modeled dict (first entry with the key). -/
def dictLookup (kvs : List (String × PyVal)) (k : String) : Option PyVal :=
  (kvs.find? (fun kv => kv.1 = k)).map (·.2)

/-- Python `dict.get(k)` with implicit `None` default. -/
def pyGet (kvs : List (String × PyVal)) (k : String) : PyVal :=
  (dictLookup kvs k).getD .vNone

/-- Python `dict.get(k, d)` with explicit default. -/
def pyGetD (kvs : List (String × PyVal)) (k : String) (d : PyVal) : PyVal :=
  (dictLookup kvs k).getD d

/-- Python `x or d`: the left operand when truthy, else the default. -/
def pyOrDefault (v d : PyVal) : PyVal := if pyTruthy v then v else d

/-- Characters Python `str.strip()` removes (ASCII whitespace). -/
def pySpace (c : Char) : Bool :=
  c = ' ' || c = Char.ofNat 9 || c = Char.ofNat 10 || c = Char.ofNat 13 ||
  c = Char.ofNat 11 || c = Char.ofNat 12

/-- Python `str.strip()`. -/
def pyStrip (s : String) : String :=
  String.mk (((s.data.dropWhile pySpace).reverse.dropWhile pySpace).reverse)

/-- Python `str.rstrip()`. -/
def pyRstrip (s : String) : String :=
  String.mk ((s.data.reverse.dropWhile pySpace).reverse)

/-- Errors a pipeline stage can raise, mirroring the Python exceptions:
failed staging move, `ValueError` for all-empty OCR text, remote OCR / analysis
service exceptions, `ValueError`/`JSONDecodeError` for a malformed analysis
response, `TypeError`/`AttributeError` on unexpected value shapes,
`CalledProcessError` from the rebuild command, other `OSError`s from file
operations, and `OSError` from `os.utime`. -/
inductive PipeErr where
  | stagingFailed
  | emptyText
  | ocrService
  | analysisService
  | malformedAnalysis
  | typeError
  | rebuildFailed
  | osError
  | utimeFailed
deriving DecidableEq, Repr

/-- Embedding of `extract_text_with_pdftotext`: `localRaw` is the outcome of
the `pdftotext` subprocess call (`none` when it raised).  The function returns
the text when it is truthy and its stripped length exceeds 20, and `None`
otherwise; every exception is caught and also yields `None`. -/
def extract_text_with_pdftotext (localRaw : Option String) : Option String :=
  match localRaw with
  | none => none
  | some text => if text ≠ "" ∧ 20 < (pyStrip text).length then some text else none

/-- Embedding of the extraction-selector lines of `process_pdf`: try the local
path, fall back to remote OCR (`remoteOcr`, `Except.error` when the service
raised), then reject empty/blank text.  The second component counts remote OCR
invocations. -/
def ocrSelect (localRaw : Option String) (remoteOcr : Except Unit String) :
    Except PipeErr String × Nat :=
  match extract_text_with_pdftotext localRaw with
  | some t =>
      (if t = "" || pyStrip t = "" then Except.error PipeErr.emptyText else Except.ok t, 0)
  | none =>
    match remoteOcr with
    | .error _ => (Except.error PipeErr.ocrService, 1)
    | .ok t =>
        (if t = "" || pyStrip t = "" then Except.error PipeErr.emptyText else Except.ok t, 1)

theorem string_ne_empty_of_length_pos {s : String} (h : 0 < s.length) : s ≠ "" := by
  intro he
  rw [he] at h
  simp [String.length] at h

/-- C1: the extraction selector uses the local `pdftotext` result iff it is
non-empty with stripped length above 20 (remote OCR never invoked); otherwise
remote OCR is invoked exactly once and its text is used verbatim with no
minimum-length check; blank text from the fallback path fails with the
empty-text error. -/
theorem extraction_selector_spec (localRaw : Option String) (remoteOcr : Except Unit String) :
    (∀ t, localRaw = some t → t ≠ "" → 20 < (pyStrip t).length →
        ocrSelect localRaw remoteOcr = (Except.ok t, 0)) ∧
    (extract_text_with_pdftotext localRaw = none ↔
        localRaw = none ∨ ∃ t, localRaw = some t ∧ (t = "" ∨ (pyStrip t).length ≤ 20)) ∧
    (extract_text_with_pdftotext localRaw = none →
        (ocrSelect localRaw remoteOcr).2 = 1 ∧
        (∀ t, remoteOcr = Except.ok t → pyStrip t ≠ "" →
            (ocrSelect localRaw remoteOcr).1 = Except.ok t) ∧
        (∀ t, remoteOcr = Except.ok t → pyStrip t = "" →
            (ocrSelect localRaw remoteOcr).1 = Except.error PipeErr.emptyText)) ∧
    ((ocrSelect localRaw remoteOcr).2 = 0 ↔ (extract_text_with_pdftotext localRaw).isSome) := by
  refine ⟨?_, ?_, ?_, ?_⟩
  · intro t ht hne hlen
    have hsel : extract_text_with_pdftotext localRaw = some t := by
      rw [ht]
      simp [extract_text_with_pdftotext, hne, hlen]
    have hblank : pyStrip t ≠ "" :=
      string_ne_empty_of_length_pos (by omega)
    simp [ocrSelect, hsel, hne, hblank]
  · cases localRaw with
    | none => simp [extract_text_with_pdftotext]
    | some t =>
      simp only [extract_text_with_pdftotext]
      constructor
      · intro h
        split at h
        · exact absurd h (by simp)
        · rename_i hcond
          right
          refine ⟨t, rfl, ?_⟩
          by_cases he : t = ""
          · exact Or.inl he
          · right
            rcases not_and_or.mp hcond with h1 | h2
            · exact absurd he (by simpa using h1)
            · omega
      · rintro (h | ⟨t', ht', hcase⟩)
        · exact absurd h (by simp)
        · injection ht' with ht'
          subst ht'
          rcases hcase with he | hle
          · simp [he]
          · have : ¬ (t = "" ∧ False) := by simp
            split
            · rename_i hcond
              omega
            · rfl
  · intro hnone
    refine ⟨?_, ?_, ?_⟩
    · simp only [ocrSelect, hnone]
      cases remoteOcr <;> simp
    · intro t hr hblank
      have hne : t ≠ "" := by
        intro he
        apply hblank
        rw [he]
        rfl
      simp [ocrSelect, hnone, hr, hne, hblank]
    · intro t hr hblank
      have he : t = "" ∨ t ≠ "" := em _
      simp [ocrSelect, hnone, hr, hblank]
  · cases hsel : extract_text_with_pdftotext localRaw with
    | none =>
      simp only [ocrSelect, hsel, Option.isSome]
      cases remoteOcr <;> simp
    | some t => simp [ocrSelect, hsel]

/-- Witness for C1 at concrete inputs: a long local text is used with no
remote call; a failed local extraction falls back to the remote text. -/
theorem extraction_selector_spec_witness :
    ocrSelect (some "abcdefghijklmnopqrstuvwxyz") (Except.ok "x") =
      (Except.ok "abcdefghijklmnopqrstuvwxyz", 0) ∧
    (ocrSelect none (Except.ok "short remote text")).1 = Except.ok "short remote text" := by
  constructor
  · exact (extraction_selector_spec _ _).1 _ rfl (by decide) (by decide)
  · exact ((extraction_selector_spec none (Except.ok "short remote text")).2.2.1
      (by rfl)).2.1 _ rfl (by decide)

/-- The opening brace character. -/
def braceL : Char := Char.ofNat 123

/-- The closing brace character. -/
def braceR : Char := Char.ofNat 125

/-- First index of a character in a character list, if any (Python
`str.find`). -/
def firstIdx (c : Char) : List Char → Option Nat
  | [] => none
  | x :: xs => if x = c then some 0 else (firstIdx c xs).map (· + 1)

/-- Last index of a character in a character list, if any (Python
`str.rfind`). -/
def lastIdx (c : Char) (l : List Char) : Option Nat :=
  (firstIdx c l.reverse).map (fun i => l.length - 1 - i)

/-- Python `text.find(c)`: first index or `-1`. -/
def pyFind (s : String) (c : Char) : Int :=
  match firstIdx c s.data with
  | some i => (i : Int)
  | none => -1

/-- Python `text.rfind(c)`: last index or `-1`. -/
def pyRfind (s : String) (c : Char) : Int :=
  match lastIdx c s.data with
  | some j => (j : Int)
  | none => -1

/-- Python slice-index normalization: negative indices count from the end and
both ends clamp into `[0, len]`. -/
def pyClamp (len : Nat) (i : Int) : Nat :=
  if i < 0 then (if i + len < 0 then 0 else (i + len).toNat) else min i.toNat len

/-- Python `s[a:b]` with integer bounds. -/
def pySlice (s : String) (a b : Int) : String :=
  String.mk ((s.data.take (pyClamp s.data.length b)).drop (pyClamp s.data.length a))

/-- Embedding of the response-cleaning lines of `get_analysis_from_gemini`:
`response.text[response.text.find(lbrace) : response.text.rfind(rbrace) + 1]`. -/
def extractJsonSubstring (text : String) : String :=
  pySlice text (pyFind text braceL) (pyRfind text braceR + 1)

/-- Embedding of the parsing tail of `get_analysis_from_gemini`: an empty
cleaned response raises `ValueError`, then `json.loads` (abstracted as
`jsonParse`, `none` when it raises) parses the cleaned response.  `none`
models the analyzer raising. -/
def get_analysis_from_gemini (jsonParse : String → Option PyVal) (text : String) :
    Option PyVal :=
  let cleanResponse := extractJsonSubstring text
  if cleanResponse = "" then none else jsonParse cleanResponse

/-- Specification-side description: `i` is the first index of `c` in `l`. -/
def isFirstIdx (l : List Char) (c : Char) (i : Nat) : Prop :=
  l[i]? = some c ∧ ∀ k ∈ List.range i, l[k]? ≠ some c

/-- Specification-side description: `j` is the last index of `c` in `l`. -/
def isLastIdx (l : List Char) (c : Char) (j : Nat) : Prop :=
  l[j]? = some c ∧ ∀ k ∈ List.range l.length, j < k → l[k]? ≠ some c

instance (l : List Char) (c : Char) (i : Nat) : Decidable (isFirstIdx l c i) := by
  unfold isFirstIdx
  infer_instance

instance (l : List Char) (c : Char) (j : Nat) : Decidable (isLastIdx l c j) := by
  unfold isLastIdx
  infer_instance

theorem getElem?_some_lt {l : List Char} {i : Nat} {a : Char} (h : l[i]? = some a) :
    i < l.length := by
  by_contra hge
  rw [List.getElem?_eq_none (by omega)] at h
  cases h

theorem string_mk_eq_empty_iff (l : List Char) : String.mk l = "" ↔ l = [] := by
  constructor
  · intro h
    have h2 := congrArg String.data h
    simpa using h2
  · rintro rfl
    rfl

theorem pyClamp_nonneg (len : Nat) (a : Int) (h0 : 0 ≤ a) (h : a ≤ (len : Int)) :
    pyClamp len a = a.toNat := by
  simp only [pyClamp]
  rw [if_neg (by omega)]
  exact Nat.min_eq_left (by omega)

theorem pyClamp_neg_one (len : Nat) (h : 1 ≤ len) : pyClamp len (-1) = len - 1 := by
  simp only [pyClamp]
  rw [if_pos (by omega), if_neg (by omega)]
  omega

theorem firstIdx_iff (c : Char) (l : List Char) (i : Nat) :
    firstIdx c l = some i ↔ isFirstIdx l c i := by
  induction l generalizing i with
  | nil => simp [firstIdx, isFirstIdx]
  | cons x xs ih =>
    by_cases hx : x = c
    · subst hx
      simp only [firstIdx, if_pos rfl]
      constructor
      · rintro h
        injection h with h
        subst h
        exact ⟨by simp, by simp⟩
      · rintro ⟨hget, hmin⟩
        cases i with
        | zero => rfl
        | succ i' =>
          exact absurd (hmin 0 (by simp)) (by simp)
    · simp only [firstIdx, if_neg hx, Option.map_eq_some']
      constructor
      · rintro ⟨i', hi', rfl⟩
        obtain ⟨hget, hmin⟩ := (ih i').mp hi'
        refine ⟨by simpa using hget, ?_⟩
        intro k hk
        simp only [List.mem_range] at hk
        cases k with
        | zero =>
          simp only [List.getElem?_cons_zero]
          intro hc
          injection hc with hc
          exact hx hc
        | succ k' =>
          simp only [List.getElem?_cons_succ]
          exact hmin k' (by simp; omega)
      · rintro ⟨hget, hmin⟩
        cases i with
        | zero =>
          simp only [List.getElem?_cons_zero] at hget
          injection hget with hget
          exact absurd hget hx
        | succ i' =>
          refine ⟨i', (ih i').mpr ⟨by simpa using hget, ?_⟩, rfl⟩
          intro k hk
          simp only [List.mem_range] at hk
          have := hmin (k + 1) (by simp; omega)
          simpa using this

theorem firstIdx_none_iff (c : Char) (l : List Char) :
    firstIdx c l = none ↔ c ∉ l := by
  induction l with
  | nil => simp [firstIdx]
  | cons x xs ih =>
    by_cases hx : x = c
    · subst hx
      simp [firstIdx]
    · simp [firstIdx, hx, ih, Ne.symm hx]

theorem lastIdx_iff (c : Char) (l : List Char) (j : Nat) :
    lastIdx c l = some j ↔ isLastIdx l c j := by
  constructor
  · intro h
    simp only [lastIdx, Option.map_eq_some'] at h
    obtain ⟨i, hi, rfl⟩ := h
    obtain ⟨hget, hmin⟩ := (firstIdx_iff c l.reverse i).mp hi
    have hilen : i < l.length := by
      have := getElem?_some_lt hget
      simpa using this
    rw [List.getElem?_reverse (by simpa using hilen)] at hget
    refine ⟨hget, ?_⟩
    intro k hk hjk
    simp only [List.mem_range] at hk
    intro hc
    have hk2 : l.length - 1 - k < i := by omega
    have := hmin (l.length - 1 - k) (by simp; omega)
    rw [List.getElem?_reverse (by simpa using (by omega : l.length - 1 - k < l.length))] at this
    have heq : l.length - 1 - (l.length - 1 - k) = k := by omega
    rw [heq] at this
    exact this hc
  · rintro ⟨hget, hmin⟩
    have hjlen : j < l.length := getElem?_some_lt hget
    have hfi : firstIdx c l.reverse = some (l.length - 1 - j) := by
      rw [firstIdx_iff]
      constructor
      · rw [List.getElem?_reverse (by simpa using (by omega : l.length - 1 - j < l.length))]
        have heq : l.length - 1 - (l.length - 1 - j) = j := by omega
        rw [heq]
        exact hget
      · intro k hk
        simp only [List.mem_range] at hk
        have hklen : k < l.length := by omega
        rw [List.getElem?_reverse (by simpa using hklen)]
        exact hmin (l.length - 1 - k) (by simp; omega) (by omega)
    simp only [lastIdx, hfi, Option.map_some']
    congr 1
    omega

/-- C2: the analyzer parses exactly the substring of the response from the
first opening brace to the last closing brace inclusive, returning the parsed
object, and it raises iff no such brace pair exists in order or that substring
fails to parse as JSON.  The hypothesis records that `json.loads` rejects a
lone closing brace, the only degenerate slice the index arithmetic can
produce. -/
theorem analysis_response_parsing_spec (jsonParse : String → Option PyVal) (text : String)
    (hbr : jsonParse (String.mk [braceR]) = none) :
    (∀ i j, isFirstIdx text.data braceL i → isLastIdx text.data braceR j → i < j →
        get_analysis_from_gemini jsonParse text =
          jsonParse (String.mk ((text.data.take (j + 1)).drop i))) ∧
    ((¬ ∃ i j, isFirstIdx text.data braceL i ∧ isLastIdx text.data braceR j ∧ i < j) →
        get_analysis_from_gemini jsonParse text = none) := by
  constructor
  · intro i j hfi hla hij
    have hf : firstIdx braceL text.data = some i := (firstIdx_iff _ _ _).mpr hfi
    have hl : lastIdx braceR text.data = some j := (lastIdx_iff _ _ _).mpr hla
    have hjlen : j < text.data.length := getElem?_some_lt hla.1
    have hcj : pyClamp text.data.length ((j : Int) + 1) = j + 1 := by
      rw [pyClamp_nonneg _ _ (by omega) (by omega)]
      omega
    have hci : pyClamp text.data.length ((i : Int)) = i := by
      rw [pyClamp_nonneg _ _ (by omega) (by omega)]
      omega
    have hsub : extractJsonSubstring text =
        String.mk ((text.data.take (j + 1)).drop i) := by
      simp only [extractJsonSubstring, pyFind, pyRfind, hf, hl, pySlice, hcj, hci]
    have hne : String.mk ((text.data.take (j + 1)).drop i) ≠ "" := by
      intro h
      have hnil := (string_mk_eq_empty_iff _).mp h
      have := congrArg List.length hnil
      simp only [List.length_drop, List.length_take, List.length_nil] at this
      omega
    simp only [get_analysis_from_gemini, hsub, if_neg hne]
  · intro hno
    cases hf : firstIdx braceL text.data with
    | some i =>
      cases hl : lastIdx braceR text.data with
      | some j =>
        have hfi := (firstIdx_iff _ _ _).mp hf
        have hla := (lastIdx_iff _ _ _).mp hl
        have hij : ¬ i < j := fun hlt => hno ⟨i, j, hfi, hla, hlt⟩
        have hilen : i < text.data.length := getElem?_some_lt hfi.1
        have hne : i ≠ j := by
          intro he
          have h1 : text.data[i]? = some braceL := hfi.1
          have h2 : text.data[j]? = some braceR := hla.1
          rw [he] at h1
          rw [h1] at h2
          have : braceL = braceR := by
            injection h2
          exact absurd this (by decide)
        have hji : j < i := by omega
        have hcj : pyClamp text.data.length ((j : Int) + 1) = j + 1 := by
          rw [pyClamp_nonneg _ _ (by omega) (by omega)]
          omega
        have hci : pyClamp text.data.length ((i : Int)) = i := by
          rw [pyClamp_nonneg _ _ (by omega) (by omega)]
          omega
        have hsub : extractJsonSubstring text = "" := by
          simp only [extractJsonSubstring, pyFind, pyRfind, hf, hl, pySlice, hcj, hci]
          rw [string_mk_eq_empty_iff]
          apply List.drop_eq_nil_of_le
          simp only [List.length_take]
          omega
        simp [get_analysis_from_gemini, hsub]
      | none =>
        have hsub : extractJsonSubstring text = "" := by
          simp only [extractJsonSubstring, pyFind, pyRfind, hf, hl, pySlice]
          rw [string_mk_eq_empty_iff]
          have h0 : pyClamp text.data.length (-1 + 1) = 0 := by
            simp [pyClamp]
          rw [h0]
          simp
        simp [get_analysis_from_gemini, hsub]
    | none =>
      cases hl : lastIdx braceR text.data with
      | some j =>
        have hla := (lastIdx_iff _ _ _).mp hl
        have hjlen : j < text.data.length := getElem?_some_lt hla.1
        have hcj : pyClamp text.data.length ((j : Int) + 1) = j + 1 := by
          rw [pyClamp_nonneg _ _ (by omega) (by omega)]
          omega
        have hca : pyClamp text.data.length (-1) = text.data.length - 1 :=
          pyClamp_neg_one _ (by omega)
        by_cases hj : j + 1 < text.data.length
        · have hsub : extractJsonSubstring text = "" := by
            simp only [extractJsonSubstring, pyFind, pyRfind, hf, hl, pySlice, hcj, hca]
            rw [string_mk_eq_empty_iff]
            apply List.drop_eq_nil_of_le
            simp only [List.length_take]
            omega
          simp [get_analysis_from_gemini, hsub]
        · have hjeq : j = text.data.length - 1 := by omega
          have hsub : extractJsonSubstring text = String.mk [braceR] := by
            simp only [extractJsonSubstring, pyFind, pyRfind, hf, hl, pySlice, hcj, hca]
            congr 1
            have htake : text.data.take (j + 1) = text.data := by
              apply List.take_of_length_le
              omega
            rw [htake]
            have hlt : text.data.length - 1 < text.data.length := by omega
            rw [List.drop_eq_getElem_cons hlt]
            have hdropnil : text.data.drop (text.data.length - 1 + 1) = [] := by
              apply List.drop_eq_nil_of_le
              omega
            rw [hdropnil]
            have hgetr : text.data[text.data.length - 1] = braceR := by
              have hj1 := hla.1
              rw [List.getElem?_eq_getElem (by omega : j < text.data.length)] at hj1
              have hj2 : text.data[j] = braceR := by
                injection hj1
              rw [← hj2]
              congr 1
              omega
            rw [hgetr]
          have hne2 : String.mk [braceR] ≠ "" := by
            decide
          rw [get_analysis_from_gemini]
          simp only [hsub, if_neg hne2]
          exact hbr
      | none =>
        have hsub : extractJsonSubstring text = "" := by
          simp only [extractJsonSubstring, pyFind, pyRfind, hf, hl, pySlice]
          rw [string_mk_eq_empty_iff]
          have h0 : pyClamp text.data.length (-1 + 1) = 0 := by
            simp [pyClamp]
          rw [h0]
          simp
        simp [get_analysis_from_gemini, hsub]

/-- Witness for C2 at a concrete response: the substring between the braces of
`"ab{12}cd"` is handed to the JSON parser and its result returned. -/
theorem analysis_response_parsing_spec_witness :
    get_analysis_from_gemini
        (fun s => if s = "\x7b12\x7d" then some (PyVal.vInt 12) else none) "ab\x7b12\x7dcd" =
      (fun s => if s = "\x7b12\x7d" then some (PyVal.vInt 12) else none)
        (String.mk (("ab\x7b12\x7dcd".data.take 6).drop 2)) :=
  (analysis_response_parsing_spec _ _ (if_neg (by decide))).1 2 5
    (by decide) (by decide) (by decide)

/-- Python `list.extend(v)`: a string contributes its characters as
one-character strings, a list its elements, a dict its keys; `None`, numbers
and booleans are not iterable and raise `TypeError`. -/
def pyExtend (acc : List PyVal) (v : PyVal) : Except String (List PyVal) :=
  match v with
  | .vStr s => .ok (acc ++ s.data.map (fun c => PyVal.vStr c.toString))
  | .vList xs => .ok (acc ++ xs)
  | .vDict kvs => .ok (acc ++ kvs.map (fun kv => PyVal.vStr kv.1))
  | _ => .error "TypeError: object is not iterable"

/-- Python hashability of modeled values: lists and dicts are unhashable. -/
def pyHashable : PyVal → Bool
  | .vList _ => false
  | .vDict _ => false
  | _ => true

/-- First-occurrence deduplication under Python equality, the key order
produced by `dict.fromkeys`. -/
def dedupFirst (xs : List PyVal) : List PyVal :=
  xs.foldl (fun acc x => if acc.any (fun y => pyBeq y x) then acc else acc ++ [x]) []

/-- Python `list(dict.fromkeys(tags))`: raises `TypeError` on an unhashable
element, otherwise deduplicates keeping first occurrences. -/
def pyFromkeys (xs : List PyVal) : Except String (List PyVal) :=
  if xs.all pyHashable then .ok (dedupFirst xs) else .error "TypeError: unhashable type"

/-- Extract the underlying strings from a list of modeled values, when every
element is a string. -/
def strListOf : List PyVal → Option (List String)
  | [] => some []
  | .vStr s :: xs => (strListOf xs).map (s :: ·)
  | _ => none

/-- Python `", ".join(xs)`: raises `TypeError` unless every element is a
string. -/
def pyJoinComma (xs : List PyVal) : Except String String :=
  match strListOf xs with
  | some ss => .ok (String.intercalate ", " ss)
  | none => .error "TypeError: sequence item: expected str instance"

/-- The four metadata fields `build_final_pdf` passes to the rebuild command:
`--title`, `--author`, `--subject`, `--keywords` (the author is handed over
unconverted). -/
structure NormalizedMetadata where
  title : String
  author : PyVal
  subject : String
  keywords : String
deriving Repr

/-- The title assembly of `build_final_pdf`: a bilingual mapping renders as
`"{en} / {fr}"` (missing keys as empty strings), anything else as its `str`
form. -/
def titleOf (docTypeVal : PyVal) : String :=
  match docTypeVal with
  | .vDict kvs =>
      pyStr (pyGetD kvs "en" (.vStr "")) ++ " / " ++ pyStr (pyGetD kvs "fr" (.vStr ""))
  | v => pyStr v

/-- The tag accumulation of `build_final_pdf`: a mapping contributes its `en`
then its `fr` entry (each defaulting to an empty list), a list contributes its
elements, anything else contributes nothing. -/
def tagsFlatten (tagsVal : PyVal) : Except String (List PyVal) :=
  match tagsVal with
  | .vDict kvs => do
      let t1 ← pyExtend [] (pyGetD kvs "en" (.vList []))
      pyExtend t1 (pyGetD kvs "fr" (.vList []))
  | .vList xs => pyExtend [] (.vList xs)
  | _ => .ok []

/-- Embedding of the metadata-normalization lines of `build_final_pdf`
(the part before any file operation): defaulting of `doc_type`/`tags`/
`sender`, bilingual title assembly, subject assembly, tag flattening,
deduplication, and comma join.  `Except.error` models a raised exception. -/
def normalizeMetadata (metadata : List (String × PyVal)) :
    Except String NormalizedMetadata :=
  let docTypeVal := pyOrDefault (pyGet metadata "doc_type") (.vStr "Document")
  let tagsVal := pyOrDefault (pyGet metadata "tags") (.vList [])
  let sender := pyOrDefault (pyGet metadata "sender") (.vStr "Unknown")
  let title := titleOf docTypeVal
  let subject := pyStr sender ++ " - " ++ title
  match tagsFlatten tagsVal with
  | .error e => .error e
  | .ok tags =>
    match pyFromkeys tags with
    | .error e => .error e
    | .ok keys =>
      match pyJoinComma keys with
      | .error e => .error e
      | .ok keywords => .ok ⟨title, sender, subject, keywords⟩

/-- Test that a modeled value is a string. -/
def isVStr : PyVal → Bool
  | .vStr _ => true
  | _ => false

/-- Test that a modeled value is a list all of whose elements are strings. -/
def isStrList : PyVal → Bool
  | .vList xs => xs.all isVStr
  | _ => false

/-- The tags shapes of the amended claim C3: absent/null, a list of strings,
or a mapping whose `en`/`fr` entries (defaulting to empty lists) are lists of
strings. -/
def tagsShapeOk (v : PyVal) : Prop :=
  v = .vNone ∨ isStrList v = true ∨
  (∃ kvs, v = .vDict kvs ∧ isStrList (pyGetD kvs "en" (.vList [])) = true ∧
      isStrList (pyGetD kvs "fr" (.vList [])) = true)

theorem dedupFirst_mem_aux (P : PyVal → Prop) (xs : List PyVal) :
    ∀ acc : List PyVal, (∀ x ∈ acc, P x) → (∀ x ∈ xs, P x) →
      ∀ y ∈ xs.foldl
        (fun acc x => if acc.any (fun y => pyBeq y x) then acc else acc ++ [x]) acc, P y := by
  induction xs with
  | nil =>
    intro acc hacc _ y hy
    exact hacc y hy
  | cons x xs ih =>
    intro acc hacc hxs y hy
    simp only [List.foldl] at hy
    by_cases hc : acc.any (fun y => pyBeq y x) = true
    · rw [if_pos hc] at hy
      exact ih acc hacc (fun z hz => hxs z (by simp [hz])) y hy
    · rw [if_neg hc] at hy
      refine ih (acc ++ [x]) ?_ (fun z hz => hxs z (by simp [hz])) y hy
      intro z hz
      rcases List.mem_append.mp hz with h | h
      · exact hacc z h
      · simp only [List.mem_singleton] at h
        subst h
        exact hxs z (by simp)

theorem dedupFirst_mem (P : PyVal → Prop) (xs : List PyVal) (h : ∀ x ∈ xs, P x) :
    ∀ y ∈ dedupFirst xs, P y :=
  dedupFirst_mem_aux P xs [] (by simp) h

theorem strListOf_ok (xs : List PyVal) (h : ∀ v ∈ xs, isVStr v = true) :
    ∃ ss, strListOf xs = some ss := by
  induction xs with
  | nil => exact ⟨[], rfl⟩
  | cons x xs ih =>
    obtain ⟨ss, hss⟩ := ih (fun v hv => h v (by simp [hv]))
    have hx := h x (by simp)
    cases x with
    | vStr s => exact ⟨s :: ss, by simp [strListOf, hss]⟩
    | vNone => simp [isVStr] at hx
    | vBool b => simp [isVStr] at hx
    | vInt n => simp [isVStr] at hx
    | vList l => simp [isVStr] at hx
    | vDict kvs => simp [isVStr] at hx

theorem pyJoinComma_ok (xs : List PyVal) (h : ∀ v ∈ xs, isVStr v = true) :
    ∃ s, pyJoinComma xs = .ok s := by
  obtain ⟨ss, hss⟩ := strListOf_ok xs h
  exact ⟨String.intercalate ", " ss, by simp [pyJoinComma, hss]⟩

theorem normalize_tail_ok (tags : List PyVal) (h : ∀ v ∈ tags, isVStr v = true) :
    (∃ keys, pyFromkeys tags = .ok keys ∧ ∀ v ∈ keys, isVStr v = true) := by
  have hhash : tags.all pyHashable = true := by
    rw [List.all_eq_true]
    intro v hv
    have := h v hv
    cases v <;> simp_all [isVStr, pyHashable]
  refine ⟨dedupFirst tags, by simp [pyFromkeys, hhash], ?_⟩
  exact dedupFirst_mem _ tags h

theorem isStrList_mem {xs : List PyVal} (h : isStrList (.vList xs) = true) :
    ∀ v ∈ xs, isVStr v = true := by
  simp only [isStrList, List.all_eq_true] at h
  exact h

theorem tagsFlatten_ok_of_shape (raw : PyVal) (h : tagsShapeOk raw) :
    ∃ tags, tagsFlatten (pyOrDefault raw (.vList [])) = .ok tags ∧
      (∀ v ∈ tags, isVStr v = true) ∧ (pyTruthy raw = false → tags = []) := by
  rcases h with h | h | ⟨kvs, rfl, hen, hfr⟩
  · subst h
    exact ⟨[], rfl, by simp, fun _ => rfl⟩
  · cases raw with
    | vList xs =>
      cases xs with
      | nil => exact ⟨[], rfl, by simp, fun _ => rfl⟩
      | cons x xs =>
        have htr : pyTruthy (PyVal.vList (x :: xs)) = true := by
          simp [pyTruthy]
        refine ⟨x :: xs, ?_, isStrList_mem h, ?_⟩
        · simp [pyOrDefault, htr, tagsFlatten, pyExtend]
        · intro hf
          rw [htr] at hf
          cases hf
    | vNone => simp [isStrList] at h
    | vBool b => simp [isStrList] at h
    | vInt n => simp [isStrList] at h
    | vStr s => simp [isStrList] at h
    | vDict kvs => simp [isStrList] at h
  · cases kvs with
    | nil => exact ⟨[], rfl, by simp, fun _ => rfl⟩
    | cons kv kvs =>
      have htr : pyTruthy (PyVal.vDict (kv :: kvs)) = true := by
        simp [pyTruthy]
      obtain ⟨en, hen2⟩ : ∃ en, pyGetD (kv :: kvs) "en" (.vList []) = .vList en := by
        cases he : pyGetD (kv :: kvs) "en" (.vList []) <;>
          simp_all [isStrList]
      obtain ⟨fr, hfr2⟩ : ∃ fr, pyGetD (kv :: kvs) "fr" (.vList []) = .vList fr := by
        cases he : pyGetD (kv :: kvs) "fr" (.vList []) <;>
          simp_all [isStrList]
      rw [hen2] at hen
      rw [hfr2] at hfr
      refine ⟨en ++ fr, ?_, ?_, ?_⟩
      · simp only [pyOrDefault, htr, if_pos, tagsFlatten, hen2, hfr2, pyExtend,
          List.nil_append]
        rfl
      · intro v hv
        rcases List.mem_append.mp hv with hmem | hmem
        · exact isStrList_mem hen v hmem
        · exact isStrList_mem hfr v hmem
      · intro hf
        rw [htr] at hf
        cases hf

/-- C3 is refuted as stated: with `tags` the (wrong-shaped) list `[1]`, the
normalizer reaches `", ".join` with a non-string element and raises
`TypeError`, so normalization is not total on the claimed domain. -/
theorem metadata_normalization_counterexample :
    normalizeMetadata [("tags", PyVal.vList [PyVal.vInt 1])] =
      Except.error "TypeError: sequence item: expected str instance" := rfl

/-- C3 amended: normalization is total and uses the documented defaults
(title `"Document"`, sender `"Unknown"`, empty keyword string) provided every
tag element that the tags shape contributes is a string; `doc_type` may have
any shape at all. -/
theorem metadata_normalization_amended (metadata : List (String × PyVal))
    (htags : tagsShapeOk (pyGet metadata "tags")) :
    ∃ nm, normalizeMetadata metadata = Except.ok nm ∧
      (pyTruthy (pyGet metadata "doc_type") = false → nm.title = "Document") ∧
      (pyTruthy (pyGet metadata "sender") = false → nm.author = PyVal.vStr "Unknown") ∧
      (pyTruthy (pyGet metadata "tags") = false → nm.keywords = "") := by
  obtain ⟨tags, htf, hstr, hnil⟩ := tagsFlatten_ok_of_shape _ htags
  obtain ⟨keys, hfk, hkeys⟩ := normalize_tail_ok tags hstr
  obtain ⟨kw, hjc⟩ := pyJoinComma_ok keys hkeys
  refine ⟨⟨titleOf (pyOrDefault (pyGet metadata "doc_type") (.vStr "Document")),
      pyOrDefault (pyGet metadata "sender") (.vStr "Unknown"),
      pyStr (pyOrDefault (pyGet metadata "sender") (.vStr "Unknown")) ++ " - " ++
        titleOf (pyOrDefault (pyGet metadata "doc_type") (.vStr "Document")), kw⟩,
      ?_, ?_, ?_, ?_⟩
  · simp only [normalizeMetadata, htf, hfk, hjc]
  · intro hfd
    simp [pyOrDefault, hfd, titleOf, pyStr]
  · intro hfs
    simp [pyOrDefault, hfs]
  · intro hft
    have htags0 : tags = [] := hnil hft
    subst htags0
    have hkeys0 : keys = [] := by
      have he : pyFromkeys ([] : List PyVal) = Except.ok [] := rfl
      rw [he] at hfk
      injection hfk with h
      exact h.symm
    subst hkeys0
    have hkw : kw = "" := by
      have he : pyJoinComma ([] : List PyVal) = Except.ok "" := rfl
      rw [he] at hjc
      injection hjc with h
      exact h.symm
    simp [hkw]

/-- Witness for the amended C3 at the fully-absent metadata dict. -/
theorem metadata_normalization_amended_witness :
    ∃ nm, normalizeMetadata [] = Except.ok nm ∧ nm.title = "Document" ∧
      nm.author = PyVal.vStr "Unknown" ∧ nm.keywords = "" := by
  obtain ⟨nm, h1, h2, h3, h4⟩ := metadata_normalization_amended [] (Or.inl rfl)
  exact ⟨nm, h1, h2 rfl, h3 rfl, h4 rfl⟩

/-- The four configured directories of the script. -/
inductive Folder where
  | inbox
  | processed
  | errorDir
  | working
deriving DecidableEq, Repr

/-- A path as the script builds them: `os.path.join(FOLDER, name)` for one of
the four configured directories. -/
structure FPath where
  dir : Folder
  name : String
deriving DecidableEq, Repr

/-- A file's observable state: content, and modification time (`none` while
the timestamp is whatever the filesystem assigned on write/move). -/
structure Entry where
  content : String
  mtime : Option Int
deriving DecidableEq, Repr

/-- The filesystem model: an association list from paths to entries. -/
abbrev FS := List (FPath × Entry)

/-- Look a path up in the filesystem. -/
def fsGet : FS → FPath → Option Entry
  | [], _ => none
  | (q, e) :: fs, p => if q = p then some e else fsGet fs p

/-- `os.path.exists`. -/
def fsExists (fs : FS) (p : FPath) : Bool := (fsGet fs p).isSome

/-- Remove every entry at a path. -/
def fsErase : FS → FPath → FS
  | [], _ => []
  | (q, e) :: fs, p => if q = p then fsErase fs p else (q, e) :: fsErase fs p

/-- Create or overwrite the file at a path. -/
def fsWrite (fs : FS) (p : FPath) (e : Entry) : FS := (p, e) :: fsErase fs p

/-- `shutil.move`: raises (`none`) when the source does not exist, otherwise
relocates the entry — content and timestamp metadata preserved — overwriting
any destination. -/
def pyMove (fs : FS) (src dst : FPath) : Option FS :=
  match fsGet fs src with
  | none => none
  | some e => some (fsWrite (fsErase fs src) dst e)

/-- `os.remove`: raises (`none`) when the path does not exist. -/
def pyRemove (fs : FS) (p : FPath) : Option FS :=
  if fsExists fs p then some (fsErase fs p) else none

theorem fsGet_erase_self (fs : FS) (p : FPath) : fsGet (fsErase fs p) p = none := by
  induction fs with
  | nil => rfl
  | cons x fs ih =>
    obtain ⟨q, e⟩ := x
    by_cases h : q = p
    · simp [fsErase, h, ih]
    · simp [fsErase, h, fsGet, ih]

theorem fsGet_erase_other (fs : FS) (p q : FPath) (h : q ≠ p) :
    fsGet (fsErase fs p) q = fsGet fs q := by
  induction fs with
  | nil => rfl
  | cons x fs ih =>
    obtain ⟨r, e⟩ := x
    by_cases hr : r = p
    · subst hr
      simp [fsErase, fsGet, Ne.symm h, ih]
    · by_cases hq : r = q
      · subst hq
        simp [fsErase, hr, fsGet]
      · simp [fsErase, hr, fsGet, hq, ih]

theorem fsGet_write_self (fs : FS) (p : FPath) (e : Entry) :
    fsGet (fsWrite fs p e) p = some e := by
  simp [fsWrite, fsGet]

theorem fsGet_write_other (fs : FS) (p q : FPath) (e : Entry) (h : q ≠ p) :
    fsGet (fsWrite fs p e) q = fsGet fs q := by
  simp [fsWrite, fsGet, Ne.symm h, fsGet_erase_other fs p q h]

/-- Sidecar path `build_final_pdf` writes next to the working file. -/
def sidecarPath (filename : String) : FPath := ⟨.working, filename ++ ".txt"⟩

/-- Output path the rebuild command writes. -/
def outputPath (filename : String) : FPath := ⟨.working, "processed_" ++ filename⟩

/-- The working path of a staged file. -/
def workingPath (filename : String) : FPath := ⟨.working, filename⟩

theorem sidecarPath_ne_workingPath (filename : String) :
    sidecarPath filename ≠ workingPath filename := by
  intro h
  have h2 : filename ++ ".txt" = filename := congrArg FPath.name h
  have h3 := congrArg String.length h2
  rw [String.length_append] at h3
  have : (".txt" : String).length = 4 := rfl
  omega

theorem outputPath_ne_workingPath (filename : String) :
    outputPath filename ≠ workingPath filename := by
  intro h
  have h2 : "processed_" ++ filename = filename := congrArg FPath.name h
  have h3 := congrArg String.length h2
  rw [String.length_append] at h3
  have : ("processed_" : String).length = 10 := rfl
  omega

theorem outputPath_ne_sidecarPath (filename : String) :
    outputPath filename ≠ sidecarPath filename := by
  intro h
  have h2 : "processed_" ++ filename = filename ++ ".txt" := congrArg FPath.name h
  have h3 := congrArg String.length h2
  rw [String.length_append, String.length_append] at h3
  have h4 : ("processed_" : String).length = 10 := rfl
  have h5 : (".txt" : String).length = 4 := rfl
  omega

/-- Embedding of `build_final_pdf`: normalize the metadata (before any file
operation), write the OCR text to the sidecar, run the containerized rebuild
command (`rebuildOk` its exit status; on success it writes the output PDF and
emits recognized text into the sidecar, on failure it writes nothing), then
clean up: delete the sidecar, delete the original working file, and move the
output into the working file's place.  Errors carry the filesystem at the
moment of the raise. -/
def build_final_pdf (fs : FS) (filename ocrText : String)
    (metadata : List (String × PyVal)) (rebuildOk : Bool)
    (rebuiltContent sidecarOut : String) : Except (PipeErr × FS) FS :=
  match normalizeMetadata metadata with
  | .error _ => .error (.typeError, fs)
  | .ok _ =>
    let fs1 := fsWrite fs (sidecarPath filename) ⟨ocrText, none⟩
    if rebuildOk then
      let fs2 := fsWrite (fsWrite fs1 (sidecarPath filename) ⟨sidecarOut, none⟩)
        (outputPath filename) ⟨rebuiltContent, none⟩
      match pyRemove fs2 (sidecarPath filename) with
      | none => .error (.osError, fs2)
      | some fs3 =>
        match pyRemove fs3 (workingPath filename) with
        | none => .error (.osError, fs3)
        | some fs4 =>
          match pyMove fs4 (outputPath filename) (workingPath filename) with
          | none => .error (.osError, fs4)
          | some fs5 => .ok fs5
    else
      .error (.rebuildFailed, fs1)

theorem pyRemove_eq {fs : FS} {p : FPath} {e : Entry} (h : fsGet fs p = some e) :
    pyRemove fs p = some (fsErase fs p) := by
  have h2 : fsExists fs p = true := by
    rw [fsExists, h]
    rfl
  unfold pyRemove
  rw [if_pos h2]

theorem pyMove_eq {fs : FS} {src : FPath} {e : Entry} (h : fsGet fs src = some e)
    (dst : FPath) : pyMove fs src dst = some (fsWrite (fsErase fs src) dst e) := by
  unfold pyMove
  rw [h]

/-- The filesystem `build_final_pdf` leaves behind on a successful rebuild,
written out as the explicit chain of file operations it performs. -/
def buildSuccessFS (fs : FS) (filename ocrText rebuiltContent sidecarOut : String) : FS :=
  fsWrite (fsErase (fsErase (fsErase
      (fsWrite (fsWrite (fsWrite fs (sidecarPath filename) ⟨ocrText, none⟩)
          (sidecarPath filename) ⟨sidecarOut, none⟩)
        (outputPath filename) ⟨rebuiltContent, none⟩)
      (sidecarPath filename)) (workingPath filename)) (outputPath filename))
    (workingPath filename) ⟨rebuiltContent, none⟩

theorem build_final_pdf_success (fs : FS) (filename ocrText rebuiltContent sidecarOut : String)
    (metadata : List (String × PyVal)) (nm : NormalizedMetadata)
    (hnm : normalizeMetadata metadata = Except.ok nm) (we : Entry)
    (hw : fsGet fs (workingPath filename) = some we) :
    build_final_pdf fs filename ocrText metadata true rebuiltContent sidecarOut =
      Except.ok (buildSuccessFS fs filename ocrText rebuiltContent sidecarOut) := by
  have hsw := sidecarPath_ne_workingPath filename
  have how := outputPath_ne_workingPath filename
  have hos := outputPath_ne_sidecarPath filename
  rw [build_final_pdf, hnm]
  simp only [if_true]
  have h2 : fsGet (fsWrite (fsWrite (fsWrite fs (sidecarPath filename) ⟨ocrText, none⟩)
      (sidecarPath filename) ⟨sidecarOut, none⟩)
      (outputPath filename) ⟨rebuiltContent, none⟩) (sidecarPath filename) =
      some ⟨sidecarOut, none⟩ := by
    rw [fsGet_write_other _ _ _ _ (Ne.symm hos), fsGet_write_self]
  rw [pyRemove_eq h2]
  simp only []
  have h3 : fsGet (fsErase (fsWrite (fsWrite (fsWrite fs (sidecarPath filename)
      ⟨ocrText, none⟩) (sidecarPath filename) ⟨sidecarOut, none⟩)
      (outputPath filename) ⟨rebuiltContent, none⟩) (sidecarPath filename))
      (workingPath filename) = some we := by
    rw [fsGet_erase_other _ _ _ (Ne.symm hsw),
      fsGet_write_other _ _ _ _ (Ne.symm how),
      fsGet_write_other _ _ _ _ (Ne.symm hsw),
      fsGet_write_other _ _ _ _ (Ne.symm hsw)]
    exact hw
  rw [pyRemove_eq h3]
  simp only []
  have h4 : fsGet (fsErase (fsErase (fsWrite (fsWrite (fsWrite fs (sidecarPath filename)
      ⟨ocrText, none⟩) (sidecarPath filename) ⟨sidecarOut, none⟩)
      (outputPath filename) ⟨rebuiltContent, none⟩) (sidecarPath filename))
      (workingPath filename)) (outputPath filename) = some ⟨rebuiltContent, none⟩ := by
    rw [fsGet_erase_other _ _ _ how, fsGet_erase_other _ _ _ hos, fsGet_write_self]
  rw [pyMove_eq h4]
  rfl

theorem buildSuccessFS_get_working (fs : FS)
    (filename ocrText rebuiltContent sidecarOut : String) :
    fsGet (buildSuccessFS fs filename ocrText rebuiltContent sidecarOut)
      (workingPath filename) = some ⟨rebuiltContent, none⟩ := by
  rw [buildSuccessFS, fsGet_write_self]

theorem buildSuccessFS_get_sidecar (fs : FS)
    (filename ocrText rebuiltContent sidecarOut : String) :
    fsGet (buildSuccessFS fs filename ocrText rebuiltContent sidecarOut)
      (sidecarPath filename) = none := by
  have hsw := sidecarPath_ne_workingPath filename
  have hos := outputPath_ne_sidecarPath filename
  rw [buildSuccessFS, fsGet_write_other _ _ _ _ hsw,
    fsGet_erase_other _ _ _ (Ne.symm hos), fsGet_erase_other _ _ _ hsw,
    fsGet_erase_self]

theorem buildSuccessFS_get_output (fs : FS)
    (filename ocrText rebuiltContent sidecarOut : String) :
    fsGet (buildSuccessFS fs filename ocrText rebuiltContent sidecarOut)
      (outputPath filename) = none := by
  have how := outputPath_ne_workingPath filename
  rw [buildSuccessFS, fsGet_write_other _ _ _ _ how, fsGet_erase_self]

theorem buildSuccessFS_get_frame (fs : FS)
    (filename ocrText rebuiltContent sidecarOut : String) (p : FPath)
    (h1 : p ≠ workingPath filename) (h2 : p ≠ sidecarPath filename)
    (h3 : p ≠ outputPath filename) :
    fsGet (buildSuccessFS fs filename ocrText rebuiltContent sidecarOut) p = fsGet fs p := by
  rw [buildSuccessFS, fsGet_write_other _ _ _ _ h1, fsGet_erase_other _ _ _ h3,
    fsGet_erase_other _ _ _ h1, fsGet_erase_other _ _ _ h2,
    fsGet_write_other _ _ _ _ h3, fsGet_write_other _ _ _ _ h2,
    fsGet_write_other _ _ _ _ h2]

/-- C4: on rebuild success the sidecar and the original working file are
deleted and the rebuilt output ends up at the working file's own path (no path
change observable, nothing else touched); on rebuild failure (non-zero exit)
the stage raises and leaves the working file unmodified and the freshly
written sidecar in place, touching nothing else. -/
theorem pdf_rebuild_frame_spec (fs : FS)
    (filename ocrText rebuiltContent sidecarOut : String)
    (metadata : List (String × PyVal)) (rebuildOk : Bool) (we : Entry)
    (hn : ∃ nm, normalizeMetadata metadata = Except.ok nm)
    (hw : fsGet fs (workingPath filename) = some we) :
    (rebuildOk = true →
      ∃ fsDone,
        build_final_pdf fs filename ocrText metadata rebuildOk rebuiltContent sidecarOut =
          Except.ok fsDone ∧
        fsGet fsDone (workingPath filename) = some ⟨rebuiltContent, none⟩ ∧
        fsGet fsDone (sidecarPath filename) = none ∧
        fsGet fsDone (outputPath filename) = none ∧
        (∀ p, p ≠ workingPath filename → p ≠ sidecarPath filename →
            p ≠ outputPath filename → fsGet fsDone p = fsGet fs p)) ∧
    (rebuildOk = false →
      build_final_pdf fs filename ocrText metadata rebuildOk rebuiltContent sidecarOut =
        Except.error (PipeErr.rebuildFailed,
          fsWrite fs (sidecarPath filename) ⟨ocrText, none⟩) ∧
      fsGet (fsWrite fs (sidecarPath filename) ⟨ocrText, none⟩)
        (workingPath filename) = some we ∧
      fsGet (fsWrite fs (sidecarPath filename) ⟨ocrText, none⟩)
        (sidecarPath filename) = some ⟨ocrText, none⟩ ∧
      (∀ p, p ≠ sidecarPath filename →
          fsGet (fsWrite fs (sidecarPath filename) ⟨ocrText, none⟩) p = fsGet fs p)) := by
  obtain ⟨nm, hnm⟩ := hn
  constructor
  · intro hok
    subst hok
    refine ⟨buildSuccessFS fs filename ocrText rebuiltContent sidecarOut,
      build_final_pdf_success fs filename ocrText rebuiltContent sidecarOut metadata nm hnm
        we hw,
      buildSuccessFS_get_working _ _ _ _ _,
      buildSuccessFS_get_sidecar _ _ _ _ _,
      buildSuccessFS_get_output _ _ _ _ _,
      buildSuccessFS_get_frame _ _ _ _ _⟩
  · intro hko
    subst hko
    refine ⟨?_, ?_, fsGet_write_self _ _ _, ?_⟩
    · rw [build_final_pdf, hnm]
      simp only []
      rw [if_neg (by simp)]
    · rw [fsGet_write_other _ _ _ _ (Ne.symm (sidecarPath_ne_workingPath filename))]
      exact hw
    · intro p hp
      exact fsGet_write_other _ _ _ _ hp

/-- Witness for C4: a concrete staged file, rebuilt successfully, ends up
replaced in place with the sidecar and output gone. -/
theorem pdf_rebuild_frame_spec_witness :
    ∃ fsDone,
      build_final_pdf [(⟨Folder.working, "a.pdf"⟩, ⟨"orig", none⟩)] "a.pdf" "text" []
          true "rebuilt" "sidetext" = Except.ok fsDone ∧
      fsGet fsDone (workingPath "a.pdf") = some ⟨"rebuilt", none⟩ ∧
      fsGet fsDone (sidecarPath "a.pdf") = none ∧
      fsGet fsDone (outputPath "a.pdf") = none ∧
      (∀ p, p ≠ workingPath "a.pdf" → p ≠ sidecarPath "a.pdf" →
          p ≠ outputPath "a.pdf" →
          fsGet fsDone p = fsGet [(⟨Folder.working, "a.pdf"⟩, ⟨"orig", none⟩)] p) :=
  (pdf_rebuild_frame_spec [(⟨Folder.working, "a.pdf"⟩, ⟨"orig", none⟩)] "a.pdf" "text"
    "rebuilt" "sidetext" [] true ⟨"orig", none⟩ ⟨_, rfl⟩ rfl).1 rfl

/-- Embedding of the filename document-type selection of `process_pdf`: in
`english` mode a mapping yields its `en` entry (default `"Document"`) and
anything else its `str` form; every other mode uses the `fr` entry
respectively the `str` form. -/
def doc_type_for_filename (outputLanguage : String) (docTypeVal : PyVal) : PyVal :=
  if outputLanguage = "english" then
    match docTypeVal with
    | .vDict kvs => pyGetD kvs "en" (.vStr "Document")
    | v => .vStr (pyStr v)
  else
    match docTypeVal with
    | .vDict kvs => pyGetD kvs "fr" (.vStr "Document")
    | v => .vStr (pyStr v)

/-- C5: the filename's document-type component is selected purely by language
mode: `english` mode takes the `en` variant of a bilingual mapping and the
plain string form of anything else; every other mode takes the `fr` variant
respectively the plain string form. -/
theorem filename_doctype_language_spec (outputLanguage : String) (docTypeVal : PyVal) :
    (outputLanguage = "english" →
      (∀ kvs v, docTypeVal = .vDict kvs → dictLookup kvs "en" = some v →
          doc_type_for_filename outputLanguage docTypeVal = v) ∧
      ((∀ kvs, docTypeVal ≠ .vDict kvs) →
          doc_type_for_filename outputLanguage docTypeVal = .vStr (pyStr docTypeVal))) ∧
    (outputLanguage ≠ "english" →
      (∀ kvs v, docTypeVal = .vDict kvs → dictLookup kvs "fr" = some v →
          doc_type_for_filename outputLanguage docTypeVal = v) ∧
      ((∀ kvs, docTypeVal ≠ .vDict kvs) →
          doc_type_for_filename outputLanguage docTypeVal = .vStr (pyStr docTypeVal))) := by
  constructor
  · intro hlang
    subst hlang
    constructor
    · rintro kvs v rfl hlook
      simp [doc_type_for_filename, pyGetD, hlook]
    · intro hnd
      cases docTypeVal with
      | vDict kvs => exact absurd rfl (hnd kvs)
      | vNone => rfl
      | vBool b => rfl
      | vInt n => rfl
      | vStr s => rfl
      | vList xs => rfl
  · intro hlang
    constructor
    · rintro kvs v rfl hlook
      simp [doc_type_for_filename, hlang, pyGetD, hlook]
    · intro hnd
      cases docTypeVal with
      | vDict kvs => exact absurd rfl (hnd kvs)
      | vNone => simp [doc_type_for_filename, hlang]
      | vBool b => simp [doc_type_for_filename, hlang]
      | vInt n => simp [doc_type_for_filename, hlang]
      | vStr s => simp [doc_type_for_filename, hlang]
      | vList xs => simp [doc_type_for_filename, hlang]

/-- Witness for C5: a bilingual mapping resolves to `"Invoice"` in english
mode and `"Facture"` in `both` mode; a plain string passes through. -/
theorem filename_doctype_language_spec_witness :
    doc_type_for_filename "english"
        (.vDict [("en", .vStr "Invoice"), ("fr", .vStr "Facture")]) = .vStr "Invoice" ∧
    doc_type_for_filename "both"
        (.vDict [("en", .vStr "Invoice"), ("fr", .vStr "Facture")]) = .vStr "Facture" ∧
    doc_type_for_filename "french" (.vStr "Facture") = .vStr "Facture" := by
  refine ⟨?_, ?_, ?_⟩
  · exact ((filename_doctype_language_spec "english"
      (.vDict [("en", .vStr "Invoice"), ("fr", .vStr "Facture")])).1 rfl).1 _ _ rfl rfl
  · exact ((filename_doctype_language_spec "both"
      (.vDict [("en", .vStr "Invoice"), ("fr", .vStr "Facture")])).2 (by decide)).1 _ _ rfl
      rfl
  · exact ((filename_doctype_language_spec "french" (.vStr "Facture")).2 (by decide)).2
      (fun kvs h => by cases h)

/-- Python `str.isalnum` on a single character, tabulated over the code points
below 256: the ASCII digits and letters, the Latin-1 ordinal/micro/fraction
signs and superscript digits, and the Latin-1 letters minus the two operator
signs.  All theorems quantifying over characters restrict themselves to this
range. -/
def pyIsAlnumChar (c : Char) : Bool :=
  decide ((48 ≤ c.toNat ∧ c.toNat ≤ 57) ∨ (65 ≤ c.toNat ∧ c.toNat ≤ 90) ∨
    (97 ≤ c.toNat ∧ c.toNat ≤ 122) ∨
    c.toNat = 0xAA ∨ c.toNat = 0xB2 ∨ c.toNat = 0xB3 ∨ c.toNat = 0xB5 ∨
    c.toNat = 0xB9 ∨ c.toNat = 0xBA ∨ (0xBC ≤ c.toNat ∧ c.toNat ≤ 0xBE) ∨
    (0xC0 ≤ c.toNat ∧ c.toNat ≤ 0xFF ∧ c.toNat ≠ 0xD7 ∧ c.toNat ≠ 0xF7))

/-- The filter of the sanitization comprehension in `process_pdf`:
`c.isalnum() or c in ('_','-')`. -/
def keepChar (c : Char) : Bool := pyIsAlnumChar c || c == '_' || c == '-'

/-- Python `str.replace(a, b)` for single characters. -/
def pyReplaceChar (s : String) (a b : Char) : String :=
  String.mk (s.data.map (fun c => if c = a then b else c))

/-- The sanitization of `process_pdf` applied to a string:
`"".join(c for c in s if c.isalnum() or c in ('_','-')).rstrip()`. -/
def sanitizeStr (s : String) : String := pyRstrip (String.mk (s.data.filter keepChar))

/-- Python `str.isalnum` on a whole string: non-empty and all characters
alphanumeric. -/
def pyStrIsAlnum (s : String) : Bool := !s.data.isEmpty && s.data.all pyIsAlnumChar

/-- The sanitization comprehension iterating over the elements of a list:
every element must be a string (else `AttributeError`), and is kept when it is
alphanumeric or equals `"_"` or `"-"`. -/
def sanElems : List PyVal → Except String (List String)
  | [] => .ok []
  | .vStr t :: rest =>
      (sanElems rest).map
        (fun ts => if pyStrIsAlnum t || t == "_" || t == "-" then t :: ts else ts)
  | _ => .error "AttributeError: isalnum"

/-- The sanitization of `process_pdf` applied to whatever value
`doc_type_for_filename` produced: a string is filtered character by
character; a list or dict is iterated element-wise / key-wise; anything else
is not iterable and raises. -/
def sanitizeIter : PyVal → Except String String
  | .vStr s => .ok (sanitizeStr s)
  | .vList xs => (sanElems xs).map (fun ts => pyRstrip (String.join ts))
  | .vDict kvs =>
      .ok (pyRstrip (String.join ((kvs.map Prod.fst).filter
        (fun k => pyStrIsAlnum k || k == "_" || k == "-"))))
  | _ => .error "TypeError: not iterable"

/-- The sender line of `process_pdf`:
`(analysis_data.get('sender') or 'Unknown').replace(' ', '_')`; a truthy
non-string sender has no `replace` attribute and raises. -/
def senderStep (senderVal : PyVal) : Except String String :=
  match pyOrDefault senderVal (.vStr "Unknown") with
  | .vStr s => .ok (pyReplaceChar s ' ' '_')
  | _ => .error "AttributeError: replace"

/-- The base-filename assembly of `process_pdf`:
`f"{doc_date}_{safe_sender}_{safe_doctype}"` after both sanitizations. -/
def filenameBase (docDateVal senderVal docTypeF : PyVal) : Except String String := do
  let sender ← senderStep senderVal
  let safeSender := sanitizeStr sender
  let safeDoctype ← sanitizeIter docTypeF
  pure (pyStr docDateVal ++ "_" ++ safeSender ++ "_" ++ safeDoctype)

/-- The character class `[A-Za-z0-9_-]` named by the specification. -/
def asciiNameChar (c : Char) : Bool :=
  decide ((65 ≤ c.toNat ∧ c.toNat ≤ 90) ∨ (97 ≤ c.toNat ∧ c.toNat ≤ 122) ∨
    (48 ≤ c.toNat ∧ c.toNat ≤ 57) ∨ c = '_' ∨ c = '-')

theorem keepChar_ascii (c : Char) (h : c.toNat < 128) (hk : keepChar c = true) :
    asciiNameChar c = true := by
  rw [asciiNameChar, decide_eq_true_eq]
  rw [keepChar] at hk
  rcases Bool.or_eq_true_iff.mp hk with hk | hk
  · rcases Bool.or_eq_true_iff.mp hk with hk | hk
    · rw [pyIsAlnumChar, decide_eq_true_eq] at hk
      rcases hk with hk | hk | hk | hk | hk | hk | hk | hk | hk | hk | hk
      · right; right; left; exact hk
      · left; exact hk
      · right; left; exact hk
      all_goals omega
    · right; right; right; left
      exact beq_iff_eq.mp hk
  · right; right; right; right
    exact beq_iff_eq.mp hk

theorem sanitizeStr_mem {s : String} {c : Char} (hc : c ∈ (sanitizeStr s).data) :
    c ∈ s.data ∧ keepChar c = true := by
  simp only [sanitizeStr, pyRstrip] at hc
  rw [List.mem_reverse] at hc
  have hc2 : c ∈ (String.mk (s.data.filter keepChar)).data.reverse :=
    (List.dropWhile_sublist pySpace).subset hc
  rw [List.mem_reverse] at hc2
  have hc3 : c ∈ s.data.filter keepChar := hc2
  exact ⟨(List.mem_filter.mp hc3).1, (List.mem_filter.mp hc3).2⟩

theorem sanitizeStr_allowed (s : String) (h : ∀ c ∈ s.data, c.toNat < 128) :
    (sanitizeStr s).data.all asciiNameChar = true := by
  rw [List.all_eq_true]
  intro c hc
  obtain ⟨hmem, hkeep⟩ := sanitizeStr_mem hc
  exact keepChar_ascii c (h c hmem) hkeep

theorem pyReplaceChar_below (s : String) (a b : Char) (h : ∀ c ∈ s.data, c.toNat < 128)
    (hb : b.toNat < 128) : ∀ c ∈ (pyReplaceChar s a b).data, c.toNat < 128 := by
  intro c hc
  simp only [pyReplaceChar] at hc
  rw [List.mem_map] at hc
  obtain ⟨d, hd, he⟩ := hc
  by_cases hda : d = a
  · rw [hda, if_pos rfl] at he
    rw [← he]
    exact hb
  · rw [if_neg hda] at he
    rw [← he]
    exact h d hd

/-- C6 is refuted as stated: the Latin-1 letter `é` survives Python's
`isalnum`-based sanitization, so a filename component can contain a character
outside `[A-Za-z0-9_-]`. -/
theorem filename_sanitization_counterexample :
    filenameBase (.vStr "2024-01-01") (.vStr "é") (.vStr "Doc") =
      Except.ok "2024-01-01_é_Doc" ∧
    "é".data.all asciiNameChar = false := by
  constructor
  · rfl
  · decide

/-- C6 amended: for every date string and every ASCII sender and
document-type string (sender non-empty, so the `"Unknown"` default does not
kick in), the base filename is
`"{date}_{sanitizedSender}_{sanitizedDocType}"` where the sender first has
spaces replaced by underscores, both components are then filtered to
alphanumeric/underscore/hyphen and right-stripped, and — the inputs being
ASCII — both components contain only characters of `[A-Za-z0-9_-]`.  (On
non-ASCII input the kept characters are exactly Python's alphanumerics, which
exceed `[A-Za-z0-9_-]`.) -/
theorem filename_sanitization_amended (dateStr sender doctype : String)
    (hsne : sender ≠ "")
    (hs : ∀ c ∈ sender.data, c.toNat < 128) (hd : ∀ c ∈ doctype.data, c.toNat < 128) :
    filenameBase (.vStr dateStr) (.vStr sender) (.vStr doctype) =
      Except.ok (dateStr ++ "_" ++ sanitizeStr (pyReplaceChar sender ' ' '_') ++ "_" ++
        sanitizeStr doctype) ∧
    (sanitizeStr (pyReplaceChar sender ' ' '_')).data.all asciiNameChar = true ∧
    (sanitizeStr doctype).data.all asciiNameChar = true := by
  refine ⟨?_, ?_, sanitizeStr_allowed doctype hd⟩
  · have htr : pyTruthy (.vStr sender) = true := by
      simp [pyTruthy, hsne]
    have hsend : senderStep (.vStr sender) = .ok (pyReplaceChar sender ' ' '_') := by
      simp [senderStep, pyOrDefault, htr]
    rw [filenameBase, hsend]
    rfl
  · exact sanitizeStr_allowed _ (pyReplaceChar_below sender ' ' '_' hs (by decide))

/-- Witness for the amended C6 at a concrete sender with a space and
punctuation. -/
theorem filename_sanitization_amended_witness :
    filenameBase (.vStr "2024-03-01") (.vStr "Acme Corp.") (.vStr "Invoice") =
      Except.ok ("2024-03-01" ++ "_" ++
        sanitizeStr (pyReplaceChar "Acme Corp." ' ' '_') ++ "_" ++
        sanitizeStr "Invoice") ∧
    (sanitizeStr (pyReplaceChar "Acme Corp." ' ' '_')).data.all asciiNameChar = true ∧
    (sanitizeStr "Invoice").data.all asciiNameChar = true :=
  filename_sanitization_amended "2024-03-01" "Acme Corp." "Invoice" (by decide)
    (by decide) (by decide)

/-- The file name probed at step `n` of the collision loop: the base name for
`n = 0`, then `base-1.pdf`, `base-2.pdf`, …. -/
def candName (base : String) : Nat → String
  | 0 => base ++ ".pdf"
  | Nat.succ n => base ++ "-" ++ natToStr (n + 1) ++ ".pdf"

/-- Embedding of the collision `while` loop of `process_pdf` over an abstract
existence test `taken`, with explicit fuel: while the current candidate is
taken, move to `base-counter.pdf` and bump the counter.  The loop terminates
in reality because the probed names are pairwise distinct and only finitely
many files exist; the callers pass fuel exceeding that bound. -/
def collisionLoop (taken : String → Bool) (base : String) :
    Nat → Nat → String → String
  | 0, _, current => current
  | fuel + 1, counter, current =>
      if taken current then
        collisionLoop taken base fuel (counter + 1)
          (base ++ "-" ++ natToStr counter ++ ".pdf")
      else current

/-- The collision resolution of `process_pdf`: start at `base.pdf` with
counter 1. -/
def resolveFinalName (taken : String → Bool) (fuel : Nat) (base : String) : String :=
  collisionLoop taken base fuel 1 (candName base 0)

theorem collisionLoop_spec (taken : String → Bool) (base : String) :
    ∀ fuel k n, k ≤ n → (∀ m, k ≤ m → m < n → taken (candName base m) = true) →
      taken (candName base n) = false → n - k < fuel →
      collisionLoop taken base fuel (k + 1) (candName base k) = candName base n := by
  intro fuel
  induction fuel with
  | zero =>
    intro k n _ _ _ hlt
    omega
  | succ fuel ih =>
    intro k n hkn hbusy hfree hlt
    by_cases hk : k = n
    · subst hk
      simp [collisionLoop, hfree]
    · have hklt : k < n := by omega
      have htk : taken (candName base k) = true := hbusy k (by omega) hklt
      have hnext : (base ++ "-" ++ natToStr (k + 1) ++ ".pdf") = candName base (k + 1) := rfl
      simp only [collisionLoop, htk, if_pos]
      rw [hnext]
      exact ih (k + 1) n (by omega) (fun m h1 h2 => hbusy m (by omega) h2) hfree (by omega)

theorem candName_inj (base : String) {m n : Nat} (h : candName base m = candName base n) :
    m = n := by
  match m, n with
  | 0, 0 => rfl
  | 0, Nat.succ n =>
    exfalso
    have hd := congrArg String.data h
    simp only [candName, String.data_append, List.append_assoc] at hd
    have h2 := List.append_cancel_left hd
    have hlen := congrArg List.length h2
    simp only [List.length_append, List.length_cons, List.length_nil] at hlen
    omega
  | Nat.succ m, 0 =>
    exfalso
    have hd := congrArg String.data h
    simp only [candName, String.data_append, List.append_assoc] at hd
    have h2 := List.append_cancel_left hd
    have hlen := congrArg List.length h2
    simp only [List.length_append, List.length_cons, List.length_nil] at hlen
    omega
  | Nat.succ m, Nat.succ n =>
    have hd := congrArg String.data h
    simp only [candName, String.data_append, List.append_assoc] at hd
    have h2 := List.append_cancel_left hd
    have h3 := List.append_cancel_left h2
    have h4 := List.append_cancel_right h3
    have h5 : natToStr (m + 1) = natToStr (n + 1) := congrArg String.mk h4
    have h6 := natToStr_inj h5
    omega

theorem probed_le_length (existing : List String) (base : String) (n : Nat)
    (hmem : ∀ m, m < n → candName base m ∈ existing) : n ≤ existing.length := by
  have hinj : Function.Injective (candName base) := fun a b hab => candName_inj base hab
  have hnd : ((List.range n).map (candName base)).Nodup :=
    List.Nodup.map hinj (List.nodup_range n)
  have hsub : ∀ x ∈ (List.range n).map (candName base), x ∈ existing := by
    intro x hx
    rw [List.mem_map] at hx
    obtain ⟨m, hm, rfl⟩ := hx
    exact hmem m (List.mem_range.mp hm)
  have h1 : n = ((List.range n).map (candName base)).length := by simp
  have h2 : ((List.range n).map (candName base)).toFinset.card =
      ((List.range n).map (candName base)).length := List.toFinset_card_of_nodup hnd
  have h3 : ((List.range n).map (candName base)).toFinset ⊆ existing.toFinset := by
    intro x hx
    exact List.mem_toFinset.mpr (hsub x (List.mem_toFinset.mp hx))
  have h4 := Finset.card_le_card h3
  have h5 := existing.toFinset_card_le
  omega

/-- C7: collision resolution is deterministic and exhaustive: when the first
`n` candidates (`base.pdf`, `base-1.pdf`, …) are all among the existing files
and the `n`-th candidate is free, the loop run by `process_pdf` (whose fuel
bound of `|existing| + 2` always suffices) returns exactly that first free
candidate, so no existing destination file is ever overwritten. -/
theorem collision_resolution_spec (existing : List String) (base : String) (n : Nat)
    (hbusy : ∀ m, m < n → candName base m ∈ existing)
    (hfree : candName base n ∉ existing) :
    resolveFinalName (fun s => existing.contains s) (existing.length + 2) base =
      candName base n ∧ candName base n ∉ existing := by
  refine ⟨?_, hfree⟩
  have hb := probed_le_length existing base n hbusy
  have hrun := collisionLoop_spec (fun s => existing.contains s) base
    (existing.length + 2) 0 n (by omega)
    (fun m _ hm => by simpa using hbusy m hm)
    (by simpa using hfree) (by omega)
  exact hrun

/-- Witness for C7 at the spec's own example: with `base.pdf` and `base-1.pdf`
present, resolving `base` yields `base-2.pdf`. -/
theorem collision_resolution_spec_witness :
    resolveFinalName (fun s => (["base.pdf", "base-1.pdf"] : List String).contains s)
      ((["base.pdf", "base-1.pdf"] : List String).length + 2) "base" = "base-2.pdf" := by
  have h := (collision_resolution_spec ["base.pdf", "base-1.pdf"] "base" 2
    (by decide) (by decide)).1
  rw [h]
  decide

/-- The inbox path of a detected file. -/
def inboxPath (filename : String) : FPath := ⟨.inbox, filename⟩

/-- The quarantine path used by the failure handler: the error folder under
the original inbox filename. -/
def errorPath (filename : String) : FPath := ⟨.errorDir, filename⟩

/-- A destination path in the processed folder. -/
def processedPath (name : String) : FPath := ⟨.processed, name⟩

/-- The outside world during one `process_pdf` run: the `pdftotext` outcome,
the remote OCR text (`Except.error` models the service raising), the raw
analysis response text (likewise), the abstract `json.loads` (`none` when it
raises), the rebuild command's exit status and outputs, the configured
language mode, the current local date string, the abstract
`datetime.strptime(s, "%Y-%m-%d").timestamp()` — `none` when parsing raises,
`some ts` the timestamp of that date's midnight local time — and whether
`os.utime` succeeds. -/
structure Env where
  localRaw : Option String
  remoteOcr : Except Unit String
  analysisResp : Except Unit String
  jsonParse : String → Option PyVal
  rebuildOk : Bool
  rebuiltContent : String
  sidecarOut : String
  outputLanguage : String
  nowDate : String
  dateParse : String → Option Int
  utimeOk : Bool

/-- Embedding of the timestamp lines at the end of `process_pdf`: when the
raw `doc_date` is truthy, `strptime` it — a non-string raises `TypeError`
and a bad string `ValueError`, both caught and merely warned — and on a
successful parse call `os.utime` on the destination, setting its modification
time; an `OSError` from `os.utime` is not caught and propagates. -/
def utimeStage (env : Env) (fs : FS) (finalPath : FPath) (docDateRaw : PyVal) :
    Except (PipeErr × FS) FS :=
  if pyTruthy docDateRaw then
    match docDateRaw with
    | .vStr s =>
      match env.dateParse s with
      | some ts =>
          if env.utimeOk then
            match fsGet fs finalPath with
            | some e => .ok (fsWrite fs finalPath ⟨e.content, some ts⟩)
            | none => .error (.utimeFailed, fs)
          else .error (.utimeFailed, fs)
      | none => .ok fs
    | _ => .ok fs
  else .ok fs

/-- Embedding of the `try` body of `process_pdf`: stage the file into the
working directory, select the extraction path, call the analyzer and parse
its response (which must be a dict for the later `.get` calls), rebuild the
PDF in place, assemble the sanitized base filename (defaulting the date to
the current day when the analyzer gave none), resolve collisions against the
processed folder, move the file there, and set its timestamp.  An error
carries the filesystem at the moment of the raise. -/
def pipelineBody (env : Env) (fs : FS) (filename : String) : Except (PipeErr × FS) FS :=
  match pyMove fs (inboxPath filename) (workingPath filename) with
  | none => .error (.stagingFailed, fs)
  | some fs1 =>
    match (ocrSelect env.localRaw env.remoteOcr).1 with
    | .error e => .error (e, fs1)
    | .ok fullText =>
      match env.analysisResp with
      | .error _ => .error (.analysisService, fs1)
      | .ok respText =>
        match get_analysis_from_gemini env.jsonParse respText with
        | none => .error (.malformedAnalysis, fs1)
        | some analysisData =>
          match analysisData with
          | .vDict kvs =>
            match build_final_pdf fs1 filename fullText kvs env.rebuildOk
                env.rebuiltContent env.sidecarOut with
            | .error ef => .error ef
            | .ok fs2 =>
              let docTypeVal := pyOrDefault (pyGet kvs "doc_type") (.vStr "Document")
              let docTypeF := doc_type_for_filename env.outputLanguage docTypeVal
              let docDateRaw := pyGet kvs "doc_date"
              let docDateVal :=
                if pyTruthy docDateRaw then docDateRaw else .vStr env.nowDate
              match filenameBase docDateVal (pyGet kvs "sender") docTypeF with
              | .error _ => .error (.typeError, fs2)
              | .ok base =>
                let finalName := resolveFinalName
                  (fun s => fsExists fs2 (processedPath s)) (fs2.length + 2)
                  (base : String)
                match pyMove fs2 (workingPath filename) (processedPath finalName) with
                | none => .error (.osError, fs2)
                | some fs3 =>
                    utimeStage env fs3 (processedPath finalName) docDateRaw
          | _ => .error (.typeError, fs1)

/-- Embedding of the `except` handler of `process_pdf`: if the staged file
still exists at its working path, move it to the error folder under its
original name. -/
def handleFailure (fs : FS) (filename : String) : FS :=
  if fsExists fs (workingPath filename) then
    (pyMove fs (workingPath filename) (errorPath filename)).getD fs
  else fs

/-- Embedding of `process_pdf`: run the pipeline; on an exception run the
failure handler.  Returns the resulting filesystem and the error, if any. -/
def process_pdf (env : Env) (fs : FS) (filename : String) : FS × Option PipeErr :=
  match pipelineBody env fs filename with
  | .ok fsDone => (fsDone, none)
  | .error (e, fsF) => (handleFailure fsF filename, some e)

theorem fpath_ne_of_dir_ne {p q : FPath} (h : p.dir ≠ q.dir) : p ≠ q := by
  intro he
  exact h (congrArg FPath.dir he)

theorem pyRemove_some_eq {fs fs2 : FS} {p : FPath} (h : pyRemove fs p = some fs2) :
    fs2 = fsErase fs p := by
  unfold pyRemove at h
  split at h
  · injection h with h
    exact h.symm
  · cases h

theorem pyMove_some_eq {fs fs2 : FS} {src dst : FPath} (h : pyMove fs src dst = some fs2) :
    ∃ e, fsGet fs src = some e ∧ fs2 = fsWrite (fsErase fs src) dst e := by
  unfold pyMove at h
  split at h
  · cases h
  · rename_i e he
    injection h with h
    exact ⟨e, he, h.symm⟩

theorem pyMove_frame {fs fs2 : FS} {src dst : FPath} (h : pyMove fs src dst = some fs2)
    (q : FPath) (h1 : q ≠ src) (h2 : q ≠ dst) : fsGet fs2 q = fsGet fs q := by
  obtain ⟨e, _, rfl⟩ := pyMove_some_eq h
  rw [fsGet_write_other _ _ _ _ h2, fsGet_erase_other _ _ _ h1]

theorem build_final_pdf_ok_frame {fs fs2 : FS} {filename ocrText rc so : String}
    {metadata : List (String × PyVal)} {rebuildOk : Bool}
    (h : build_final_pdf fs filename ocrText metadata rebuildOk rc so = Except.ok fs2) :
    ∀ q : FPath, q.dir ≠ Folder.working → fsGet fs2 q = fsGet fs q := by
  intro q hq
  have hqs : q ≠ sidecarPath filename := fpath_ne_of_dir_ne hq
  have hqo : q ≠ outputPath filename := fpath_ne_of_dir_ne hq
  have hqw : q ≠ workingPath filename := fpath_ne_of_dir_ne hq
  unfold build_final_pdf at h
  dsimp only [] at h
  split at h
  · cases h
  · split at h
    · split at h
      · cases h
      · rename_i fs3 hrem3
        split at h
        · cases h
        · rename_i fs4 hrem4
          split at h
          · cases h
          · rename_i fs5 hmove
            injection h with h
            subst h
            have h3 := pyRemove_some_eq hrem3
            have h4 := pyRemove_some_eq hrem4
            subst h3
            subst h4
            rw [pyMove_frame hmove q hqo hqw, fsGet_erase_other _ _ _ hqw,
              fsGet_erase_other _ _ _ hqs, fsGet_write_other _ _ _ _ hqo,
              fsGet_write_other _ _ _ _ hqs, fsGet_write_other _ _ _ _ hqs]
    · cases h

theorem build_final_pdf_error_frame {fs fsF : FS} {filename ocrText rc so : String}
    {metadata : List (String × PyVal)} {rebuildOk : Bool} {e : PipeErr}
    (h : build_final_pdf fs filename ocrText metadata rebuildOk rc so =
      Except.error (e, fsF)) :
    ∀ q : FPath, q.dir ≠ Folder.working → fsGet fsF q = fsGet fs q := by
  intro q hq
  have hqs : q ≠ sidecarPath filename := fpath_ne_of_dir_ne hq
  have hqo : q ≠ outputPath filename := fpath_ne_of_dir_ne hq
  have hqw : q ≠ workingPath filename := fpath_ne_of_dir_ne hq
  unfold build_final_pdf at h
  dsimp only [] at h
  split at h
  · injection h with h
    injection h with h1 h2
    subst h2
    rfl
  · split at h
    · split at h
      · injection h with h
        injection h with h1 h2
        subst h2
        rw [fsGet_write_other _ _ _ _ hqo, fsGet_write_other _ _ _ _ hqs,
          fsGet_write_other _ _ _ _ hqs]
      · rename_i fs3 hrem3
        split at h
        · injection h with h
          injection h with h1 h2
          subst h2
          have h3 := pyRemove_some_eq hrem3
          subst h3
          rw [fsGet_erase_other _ _ _ hqs, fsGet_write_other _ _ _ _ hqo,
            fsGet_write_other _ _ _ _ hqs, fsGet_write_other _ _ _ _ hqs]
        · rename_i fs4 hrem4
          split at h
          · injection h with h
            injection h with h1 h2
            subst h2
            have h3 := pyRemove_some_eq hrem3
            have h4 := pyRemove_some_eq hrem4
            subst h3
            subst h4
            rw [fsGet_erase_other _ _ _ hqw, fsGet_erase_other _ _ _ hqs,
              fsGet_write_other _ _ _ _ hqo, fsGet_write_other _ _ _ _ hqs,
              fsGet_write_other _ _ _ _ hqs]
          · cases h
    · injection h with h
      injection h with h1 h2
      subst h2
      rw [fsGet_write_other _ _ _ _ hqs]

theorem utimeStage_error {env : Env} {fs fsF : FS} {path : FPath} {raw : PyVal}
    {e : PipeErr} (h : utimeStage env fs path raw = Except.error (e, fsF)) :
    e = PipeErr.utimeFailed ∧ fsF = fs := by
  unfold utimeStage at h
  split at h
  · split at h
    · split at h
      · split at h
        · split at h
          · cases h
          · injection h with h
            injection h with h1 h2
            exact ⟨h1.symm, h2.symm⟩
        · injection h with h
          injection h with h1 h2
          exact ⟨h1.symm, h2.symm⟩
      · cases h
    · cases h
  · cases h

theorem handleFailure_processed_frame (fsF : FS) (filename : String) (name : String) :
    fsGet (handleFailure fsF filename) (processedPath name) =
      fsGet fsF (processedPath name) := by
  unfold handleFailure
  split
  · rename_i hex
    rw [fsExists] at hex
    cases hge : fsGet fsF (workingPath filename) with
    | none => rw [hge] at hex; cases hex
    | some we =>
      rw [pyMove_eq hge]
      simp only [Option.getD_some]
      rw [fsGet_write_other _ _ _ _ (fpath_ne_of_dir_ne (by simp [processedPath, errorPath])),
        fsGet_erase_other _ _ _ (fpath_ne_of_dir_ne (by simp [processedPath, workingPath]))]
  · rfl

theorem handleFailure_moves {fsF : FS} {filename : String} {we : Entry}
    (h : fsGet fsF (workingPath filename) = some we) :
    handleFailure fsF filename =
      fsWrite (fsErase fsF (workingPath filename)) (errorPath filename) we := by
  unfold handleFailure
  rw [pyMove_eq h]
  have hex : fsExists fsF (workingPath filename) = true := by
    rw [fsExists, h]
    rfl
  rw [if_pos hex]
  rfl

theorem handleFailure_noop {fsF : FS} {filename : String}
    (h : fsGet fsF (workingPath filename) = none) :
    handleFailure fsF filename = fsF := by
  unfold handleFailure
  have hex : fsExists fsF (workingPath filename) = false := by
    rw [fsExists, h]
    rfl
  rw [hex]
  simp

theorem pipelineBody_error_frame (env : Env) (fs : FS) (filename : String)
    (e : PipeErr) (fsF : FS)
    (herr : pipelineBody env fs filename = Except.error (e, fsF)) :
    (e ≠ PipeErr.utimeFailed →
      ∀ q : FPath, q.dir ≠ Folder.inbox → q.dir ≠ Folder.working →
        fsGet fsF q = fsGet fs q) ∧
    (∀ q : FPath, q.dir ≠ Folder.inbox → q.dir ≠ Folder.working →
        q.dir ≠ Folder.processed → fsGet fsF q = fsGet fs q) := by
  unfold pipelineBody at herr
  dsimp only [] at herr
  split at herr
  · injection herr with herr
    injection herr with h1 h2
    subst h2
    exact ⟨fun _ _ _ _ => rfl, fun _ _ _ _ => rfl⟩
  · rename_i fs1 hmov
    have hframe1 : ∀ q : FPath, q.dir ≠ Folder.inbox → q.dir ≠ Folder.working →
        fsGet fs1 q = fsGet fs q := by
      intro q h1 h2
      have hqi : q ≠ inboxPath filename := by
        intro hh
        rw [hh] at h1
        exact h1 rfl
      have hqw : q ≠ workingPath filename := by
        intro hh
        rw [hh] at h2
        exact h2 rfl
      exact pyMove_frame hmov q hqi hqw
    split at herr
    · injection herr with herr
      injection herr with h1 h2
      subst h2
      exact ⟨fun _ q h1 h2 => hframe1 q h1 h2, fun q h1 h2 _ => hframe1 q h1 h2⟩
    · split at herr
      · injection herr with herr
        injection herr with h1 h2
        subst h2
        exact ⟨fun _ q h1 h2 => hframe1 q h1 h2, fun q h1 h2 _ => hframe1 q h1 h2⟩
      · split at herr
        · injection herr with herr
          injection herr with h1 h2
          subst h2
          exact ⟨fun _ q h1 h2 => hframe1 q h1 h2, fun q h1 h2 _ => hframe1 q h1 h2⟩
        · split at herr
          · rename_i kvs
            split at herr
            · rename_i ef hbuild
              rw [herr] at hbuild
              have hb := build_final_pdf_error_frame hbuild
              refine ⟨fun _ q h1 h2 => ?_, fun q h1 h2 _ => ?_⟩ <;>
                rw [hb q h2, hframe1 q h1 h2]
            · rename_i fs2 hbuild
              have hb := build_final_pdf_ok_frame hbuild
              split at herr
              · injection herr with herr
                injection herr with h1 h2
                subst h2
                refine ⟨fun _ q h1 h2 => ?_, fun q h1 h2 _ => ?_⟩ <;>
                  rw [hb q h2, hframe1 q h1 h2]
              · rename_i base hbase
                split at herr
                · injection herr with herr
                  injection herr with h1 h2
                  subst h2
                  refine ⟨fun _ q h1 h2 => ?_, fun q h1 h2 _ => ?_⟩ <;>
                    rw [hb q h2, hframe1 q h1 h2]
                · rename_i fs3 hmove2
                  obtain ⟨he, hfs⟩ := utimeStage_error herr
                  subst he
                  subst hfs
                  constructor
                  · intro hne
                    exact absurd rfl hne
                  · intro q h1 h2 h3
                    have hqw : q ≠ workingPath filename := by
                      intro hh
                      rw [hh] at h2
                      exact h2 rfl
                    have hqp : q ≠ processedPath
                        (resolveFinalName (fun s => fsExists fs2 (processedPath s))
                          (fs2.length + 2) base) := by
                      intro hh
                      rw [hh] at h3
                      exact h3 rfl
                    rw [pyMove_frame hmove2 q hqw hqp, hb q h2, hframe1 q h1 h2]
          · injection herr with herr
            injection herr with h1 h2
            subst h2
            exact ⟨fun _ q h1 h2 => hframe1 q h1 h2, fun q h1 h2 _ => hframe1 q h1 h2⟩

/-- C8: the date logic of `process_pdf` with a succeeding `os.utime` call: a
falsy `doc_date` makes the filename use the current local date and the
timestamp stage leave the filesystem untouched; a string `doc_date` has the
destination timestamp set to its parsed midnight value exactly when
`strptime` succeeds, content unchanged, with a parse failure non-fatal and
leaving the filesystem-assigned timestamp in place; a truthy non-string
`doc_date` likewise only produces a caught `TypeError`. -/
theorem date_and_timestamp_spec (env : Env) (fs : FS) (finalPath : FPath)
    (docDateRaw : PyVal) (e : Entry) (hfp : fsGet fs finalPath = some e)
    (hok : env.utimeOk = true) :
    (pyTruthy docDateRaw = false →
      (if pyTruthy docDateRaw then docDateRaw else PyVal.vStr env.nowDate) =
          PyVal.vStr env.nowDate ∧
      utimeStage env fs finalPath docDateRaw = Except.ok fs) ∧
    (∀ s, docDateRaw = PyVal.vStr s → pyTruthy docDateRaw = true →
      (∀ ts, env.dateParse s = some ts →
        utimeStage env fs finalPath docDateRaw =
          Except.ok (fsWrite fs finalPath ⟨e.content, some ts⟩)) ∧
      (env.dateParse s = none →
        utimeStage env fs finalPath docDateRaw = Except.ok fs)) ∧
    ((∀ s, docDateRaw ≠ PyVal.vStr s) →
      utimeStage env fs finalPath docDateRaw = Except.ok fs) := by
  refine ⟨?_, ?_, ?_⟩
  · intro hf
    refine ⟨by rw [hf]; simp, ?_⟩
    unfold utimeStage
    rw [hf]
    simp
  · rintro s rfl htr
    constructor
    · intro ts hts
      unfold utimeStage
      rw [htr]
      simp only [if_true]
      rw [hts, hok]
      simp only [if_true]
      rw [hfp]
    · intro hts
      unfold utimeStage
      rw [htr]
      simp only [if_true]
      rw [hts]
  · intro hns
    cases docDateRaw with
    | vStr s => exact absurd rfl (hns s)
    | vNone =>
      unfold utimeStage
      split <;> rfl
    | vBool b =>
      unfold utimeStage
      split <;> rfl
    | vInt n =>
      unfold utimeStage
      split <;> rfl
    | vList xs =>
      unfold utimeStage
      split <;> rfl
    | vDict kvs =>
      unfold utimeStage
      split <;> rfl

theorem ocrSelect_error_ne {l : Option String} {r : Except Unit String} {e : PipeErr}
    (h : (ocrSelect l r).1 = Except.error e) : e ≠ PipeErr.utimeFailed := by
  intro he
  subst he
  unfold ocrSelect at h
  cases hx : extract_text_with_pdftotext l with
  | some t =>
    rw [hx] at h
    dsimp only [] at h
    split at h
    · injection h with h2
      exact PipeErr.noConfusion h2
    · cases h
  | none =>
    rw [hx] at h
    cases r with
    | error u =>
      dsimp only [] at h
      injection h with h2
      exact PipeErr.noConfusion h2
    | ok t =>
      dsimp only [] at h
      split at h
      · injection h with h2
        exact PipeErr.noConfusion h2
      · cases h

theorem build_final_pdf_error_ne {fs fsF : FS} {filename ocrText rc so : String}
    {metadata : List (String × PyVal)} {rebuildOk : Bool} {e : PipeErr}
    (h : build_final_pdf fs filename ocrText metadata rebuildOk rc so =
      Except.error (e, fsF)) : e ≠ PipeErr.utimeFailed := by
  intro he
  subst he
  unfold build_final_pdf at h
  dsimp only [] at h
  split at h
  · injection h with h
    injection h with h1 h2
    exact PipeErr.noConfusion h1
  · split at h
    · split at h
      · injection h with h
        injection h with h1 h2
        exact PipeErr.noConfusion h1
      · split at h
        · injection h with h
          injection h with h1 h2
          exact PipeErr.noConfusion h1
        · split at h
          · injection h with h
            injection h with h1 h2
            exact PipeErr.noConfusion h1
          · cases h
    · injection h with h
      injection h with h1 h2
      exact PipeErr.noConfusion h1

/-- C10: once the move into the processed folder succeeded, a later
`os.utime` failure aborts the pipeline but never relocates the document: at
the moment of the failure the working path no longer exists, so the handler
does nothing, the document stays in the processed folder under its final
collision-resolved name, and the error folder is untouched. -/
theorem post_move_failure_spec (env : Env) (fs : FS) (filename : String) (fsF : FS)
    (herr : pipelineBody env fs filename = Except.error (PipeErr.utimeFailed, fsF)) :
    fsGet fsF (workingPath filename) = none ∧
    process_pdf env fs filename = (fsF, some PipeErr.utimeFailed) ∧
    (∃ finalName entry, fsGet fsF (processedPath finalName) = some entry) ∧
    (∀ name, fsGet fsF (errorPath name) = fsGet fs (errorPath name)) := by
  have herrframe : ∀ name, fsGet fsF (errorPath name) = fsGet fs (errorPath name) := by
    intro name
    exact (pipelineBody_error_frame env fs filename PipeErr.utimeFailed fsF herr).2
      (errorPath name) (by simp [errorPath]) (by simp [errorPath]) (by simp [errorPath])
  have hmain : fsGet fsF (workingPath filename) = none ∧
      ∃ finalName entry, fsGet fsF (processedPath finalName) = some entry := by
    unfold pipelineBody at herr
    dsimp only [] at herr
    split at herr
    · injection herr with herr
      injection herr with h1 h2
      exact absurd h1 (by decide)
    · rename_i fs1 hmov
      split at herr
      · rename_i e1 hocr
        injection herr with herr
        injection herr with h1 h2
        exact absurd h1 (ocrSelect_error_ne hocr)
      · split at herr
        · injection herr with herr
          injection herr with h1 h2
          exact absurd h1 (by decide)
        · split at herr
          · injection herr with herr
            injection herr with h1 h2
            exact absurd h1 (by decide)
          · split at herr
            · rename_i kvs
              split at herr
              · rename_i ef hbuild
                rw [herr] at hbuild
                exact absurd rfl (build_final_pdf_error_ne hbuild)
              · rename_i fs2 hbuild
                split at herr
                · injection herr with herr
                  injection herr with h1 h2
                  exact absurd h1 (by decide)
                · rename_i base hbase
                  split at herr
                  · injection herr with herr
                    injection herr with h1 h2
                    exact absurd h1 (by decide)
                  · rename_i fs3 hmove2
                    obtain ⟨_, hfs⟩ := utimeStage_error herr
                    subst hfs
                    obtain ⟨entry, hget, hfs3⟩ := pyMove_some_eq hmove2
                    subst hfs3
                    constructor
                    · rw [fsGet_write_other _ _ _ _
                        (fpath_ne_of_dir_ne (by simp [workingPath, processedPath])),
                        fsGet_erase_self]
                    · exact ⟨_, entry, fsGet_write_self _ _ _⟩
            · injection herr with herr
              injection herr with h1 h2
              exact absurd h1 (by decide)
  refine ⟨hmain.1, ?_, hmain.2, herrframe⟩
  unfold process_pdf
  rw [herr]
  dsimp only []
  rw [handleFailure_noop hmain.1]

/-- C9 as amended: for every exception raised after staging and before the
move into the processed folder, the remaining stages are skipped, the handler
relocates the working file (if it still exists, with its failure-time
content) to the error folder under its original inbox name, and the processed
folder receives nothing. -/
theorem failure_routing_amended (env : Env) (fs : FS) (filename : String)
    (e : PipeErr) (fsF : FS)
    (herr : pipelineBody env fs filename = Except.error (e, fsF))
    (hne : e ≠ PipeErr.utimeFailed) :
    process_pdf env fs filename = (handleFailure fsF filename, some e) ∧
    (∀ name, fsGet (handleFailure fsF filename) (processedPath name) =
        fsGet fs (processedPath name)) ∧
    (∀ we, fsGet fsF (workingPath filename) = some we →
        fsGet (handleFailure fsF filename) (errorPath filename) = some we) ∧
    (fsGet fsF (workingPath filename) = none → handleFailure fsF filename = fsF) := by
  refine ⟨?_, ?_, ?_, ?_⟩
  · unfold process_pdf
    rw [herr]
  · intro name
    rw [handleFailure_processed_frame]
    exact (pipelineBody_error_frame env fs filename e fsF herr).1 hne
      (processedPath name) (by simp [processedPath]) (by simp [processedPath])
  · intro we hwe
    rw [handleFailure_moves hwe, fsGet_write_self]
  · exact handleFailure_noop

/-- A run in which every stage succeeds except the final `os.utime` call:
the local extraction is long enough, the analyzer returns a dict carrying a
parseable `doc_date`, and the rebuild succeeds. -/
def demoEnv : Env :=
  ⟨some "abcdefghijklmnopqrstuvwxyz", .ok "remote", .ok "\x7b\x7d",
   fun s => if s = "\x7b\x7d" then some (.vDict [("doc_date", .vStr "2024-03-01")]) else none,
   true, "rebuilt", "recognized", "both", "2025-06-01",
   fun s => if s = "2024-03-01" then some 1709269200 else none, false⟩

/-- One detected file sitting in the inbox. -/
def demoFS : FS := [(inboxPath "doc.pdf", ⟨"original", none⟩)]

/-- A run in which the analysis service call raises. -/
def demoEnvFail : Env :=
  ⟨some "abcdefghijklmnopqrstuvwxyz", .ok "remote", .error (),
   fun _ => none, true, "rebuilt", "recognized", "both", "2025-06-01",
   fun _ => none, true⟩

/-- An environment for exercising the timestamp stage alone: `strptime`
succeeds on `"2024-03-01"` and `os.utime` works. -/
def demoEnvDate : Env :=
  ⟨none, .ok "", .ok "", fun _ => none, true, "", "", "both", "2025-06-01",
   fun s => if s = "2024-03-01" then some 1709269200 else none, true⟩

/-- C9 is refuted as stated: with `os.utime` raising after the move into the
processed folder, an exception is raised by a stage after staging succeeded,
yet the document ends up in the processed folder and the error folder
receives nothing. -/
theorem failure_routing_counterexample :
    (process_pdf demoEnv demoFS "doc.pdf").2 = some PipeErr.utimeFailed ∧
    fsGet (process_pdf demoEnv demoFS "doc.pdf").1
        (processedPath "2024-03-01_Unknown_Document.pdf") =
      some ⟨"rebuilt", none⟩ ∧
    fsGet (process_pdf demoEnv demoFS "doc.pdf").1 (errorPath "doc.pdf") = none :=
  ⟨rfl, rfl, rfl⟩

/-- Witness for the amended C9: the analyzer raises a service error, the
staged file is found at its working path and lands in the error folder under
its original inbox filename. -/
theorem failure_routing_amended_witness :
    process_pdf demoEnvFail demoFS "doc.pdf" =
      (handleFailure [(workingPath "doc.pdf", ⟨"original", none⟩)] "doc.pdf",
        some PipeErr.analysisService) ∧
    fsGet (handleFailure [(workingPath "doc.pdf", ⟨"original", none⟩)] "doc.pdf")
      (errorPath "doc.pdf") = some ⟨"original", none⟩ := by
  have h := failure_routing_amended demoEnvFail demoFS "doc.pdf" PipeErr.analysisService
    [(workingPath "doc.pdf", ⟨"original", none⟩)] rfl (by decide)
  exact ⟨h.1, h.2.2.1 ⟨"original", none⟩ rfl⟩

/-- Witness for C10 at the `demoEnv` scenario: the pipeline fails at the
timestamp step, the working path is empty, the document sits in the processed
folder and the handler touched nothing. -/
theorem post_move_failure_spec_witness :
    fsGet [(processedPath "2024-03-01_Unknown_Document.pdf",
        (⟨"rebuilt", none⟩ : Entry))] (workingPath "doc.pdf") = none ∧
    process_pdf demoEnv demoFS "doc.pdf" =
      ([(processedPath "2024-03-01_Unknown_Document.pdf", ⟨"rebuilt", none⟩)],
        some PipeErr.utimeFailed) ∧
    (∃ finalName entry,
      fsGet [(processedPath "2024-03-01_Unknown_Document.pdf",
        (⟨"rebuilt", none⟩ : Entry))] (processedPath finalName) = some entry) ∧
    (∀ name, fsGet [(processedPath "2024-03-01_Unknown_Document.pdf",
        (⟨"rebuilt", none⟩ : Entry))] (errorPath name) = fsGet demoFS (errorPath name)) :=
  post_move_failure_spec demoEnv demoFS "doc.pdf"
    [(processedPath "2024-03-01_Unknown_Document.pdf", ⟨"rebuilt", none⟩)] rfl

/-- Witness for C8: a parseable `doc_date` sets the destination timestamp to
its parsed value; an absent one leaves the filesystem untouched. -/
theorem date_and_timestamp_spec_witness :
    utimeStage demoEnvDate [(processedPath "x.pdf", ⟨"c", none⟩)] (processedPath "x.pdf")
        (PyVal.vStr "2024-03-01") =
      Except.ok (fsWrite [(processedPath "x.pdf", ⟨"c", none⟩)] (processedPath "x.pdf")
        ⟨"c", some 1709269200⟩) ∧
    utimeStage demoEnvDate [(processedPath "x.pdf", ⟨"c", none⟩)] (processedPath "x.pdf")
        PyVal.vNone = Except.ok [(processedPath "x.pdf", ⟨"c", none⟩)] := by
  have h1 := date_and_timestamp_spec demoEnvDate [(processedPath "x.pdf", ⟨"c", none⟩)]
    (processedPath "x.pdf") (PyVal.vStr "2024-03-01") ⟨"c", none⟩ rfl rfl
  have h2 := date_and_timestamp_spec demoEnvDate [(processedPath "x.pdf", ⟨"c", none⟩)]
    (processedPath "x.pdf") PyVal.vNone ⟨"c", none⟩ rfl rfl
  exact ⟨(h1.2.1 "2024-03-01" rfl (by decide)).1 1709269200 (by decide), (h2.1 rfl).2⟩

end DocsPipeline
